import Mathlib

/-!
Verification development for the PKM hybrid clustering and entity-centrality
engine (didymos-backend).  The Python services are shallowly embedded as
executable Lean definitions:

 - app/services/cluster_service.py
     compute_entity_graph_centrality, find_cluster_hub_entities,
     generate_cluster_name_from_graph, _simple_clustering,
     compute_clusters_louvain, compute_clusters_semantic,
     _semantic_fallback_to_type_based, _compute_recency_bonus,
     _build_cluster_edges, is_cluster_cache_stale
 - app/services/entity_cluster_service.py
     merge_cluster_assignments, cluster_by_graph_louvain,
     cluster_by_pkm_type, compute_entity_clusters_hybrid,
     infer_semantic_edge_type, _compute_cluster_edges
 - app/api/routes_graph.py
     the cache read/write decision logic of get_clustered_vault_graph

Modelling conventions:
 - Python floats are modelled as exact rationals (0.30 = 3/10 and so on).
 - Timestamps (datetime values) are modelled as integers (epoch seconds);
   ISO-string parsing outcomes are modelled as Option values.
 - Neo4j query results are inputs: each embedded function takes the rows the
   corresponding Cypher query would return.  External library calls
   (UMAP, HDBSCAN, networkx Louvain) are oracle function parameters; a call
   site that fixes a random seed passes (some 42).getD rng to its oracle,
   where rng stands for the ambient randomness a run would otherwise use.
 - Python dicts are modelled as association lists in insertion order;
   Python lists as Lean lists.
-/

namespace PKM

/-- Blacklist of semantically generic entity names, copied from
GENERIC_ENTITY_BLACKLIST in cluster_service.py (a Python set; order is
irrelevant, only membership is used). -/
def GENERIC_ENTITY_BLACKLIST : List String :=
  ["서울대학교", "서울대", "snu", "seoul national university",
   "대학교", "대학", "연구실", "연구소", "학교",
   "연구", "논문", "프로젝트", "회의", "미팅", "정리", "메모", "노트",
   "research", "paper", "project", "meeting", "note", "memo",
   "2024", "2025", "오늘", "내일", "이번주",
   "todo", "task", "idea", "개념", "정의", "요약"]

/-- One row of the degree query in compute_entity_graph_centrality:
entity id, display name, first label, and the COLLECT(DISTINCT note_id)
set of connected notes (a set, hence a Finset; degree = its size). -/
structure DegreeRow where
  entityId : String
  entityName : String
  entityType : String
  connectedNotes : Finset String
deriving DecidableEq

/-- One row of the co-occurrence query: a pair of distinct entities and the
number of notes of the window mentioning both. -/
structure CoocRow where
  entity1 : String
  entity2 : String
  sharedNotes : Nat
deriving DecidableEq

/-- The two query results compute_entity_graph_centrality consumes. -/
structure CentralityInput where
  degreeRows : List DegreeRow
  coocRows : List CoocRow

/-- co_occurrence_count[eid]: each co-occurrence row increments the count of
both of its endpoints by one (number of distinct co-occurrence partners). -/
def coOccurrenceCount (rows : List CoocRow) (eid : String) : Nat :=
  rows.foldl
    (fun acc r =>
      acc + (if r.entity1 = eid then 1 else 0) + (if r.entity2 = eid then 1 else 0))
    0

/-- The entity ids appearing in the co-occurrence rows (the keys of the
Python defaultdict, possibly with repetitions; only used under max). -/
def coocEntityIds (rows : List CoocRow) : List String :=
  rows.foldl (fun acc r => acc ++ [r.entity1, r.entity2]) []

/-- max_cooccurrence = max(co_occurrence_count.values(), default=1).
Every key of the defaultdict has count at least 1, so folding max with
initial value 1 over the keys computes the same number. -/
def maxCooccurrence (rows : List CoocRow) : Nat :=
  (coocEntityIds rows).foldl (fun m e => max m (coOccurrenceCount rows e)) 1

/-- generic_penalty: 0.1 for blacklisted entity names or ids, else 1.0. -/
def genericPenalty (isGeneric : Bool) : ℚ :=
  if isGeneric then 1/10 else 1

/-- Blacklist test: lowercased name or lowercased id in the blacklist. -/
def isGenericEntity (name eid : String) : Bool :=
  GENERIC_ENTITY_BLACKLIST.contains name.toLower ||
    GENERIC_ENTITY_BLACKLIST.contains eid.toLower

/-- degree_centrality = degree / max(total_notes, 1). -/
def degreeCentrality (totalNotes degree : Nat) : ℚ :=
  (degree : ℚ) / ((max totalNotes 1 : Nat) : ℚ)

/-- co_score = co_count / max(max_cooccurrence, 1). -/
def coScoreOf (maxCo coCount : Nat) : ℚ :=
  (coCount : ℚ) / ((max maxCo 1 : Nat) : ℚ)

/-- bridge_score = min(1.0, len(connected) / max(3, total_notes * 0.2)) when
the entity connects more than one note, else 0.0 (0.2 = 1/5 exactly). -/
def bridgeScoreOf (totalNotes degree : Nat) : ℚ :=
  if 1 < degree then
    min 1 ((degree : ℚ) / max 3 ((totalNotes : ℚ) * (1/5)))
  else 0

/-- vault_size = vault_total_notes if vault_total_notes else total_notes
(Python truthiness: None and 0 both fall back to total_notes). -/
def vaultSizeOf (vaultTotalNotes : Option Nat) (totalNotes : Nat) : Nat :=
  match vaultTotalNotes with
  | some v => if v = 0 then totalNotes else v
  | none => totalNotes

/-- idf_weight: when vault_size > 0 and degree > 0, penalize entities whose
cluster coverage degree/total_notes exceeds one half, linearly with slope
1.5 and floored at 0.3; otherwise 1.0. -/
def idfWeightOf (vaultTotalNotes : Option Nat) (totalNotes degree : Nat) : ℚ :=
  if 0 < vaultSizeOf vaultTotalNotes totalNotes ∧ 0 < degree then
    (let coverage : ℚ := (degree : ℚ) / (totalNotes : ℚ)
     if 1/2 < coverage then max (3/10) (1 - (coverage - 1/2) * (3/2)) else 1)
  else 1

/-- raw_centrality = 0.30 * degree_centrality + 0.25 * co_score
+ 0.25 * bridge_score + 0.20 * idf_weight. -/
def rawCentrality (dc co br idf : ℚ) : ℚ :=
  3/10 * dc + 1/4 * co + 1/4 * br + 1/5 * idf

/-- All per-entity fields attached by Step 3 of
compute_entity_graph_centrality. -/
structure ScoredInfo where
  name : String
  etype : String
  degree : Nat
  coOccurrenceCnt : Nat
  degreeCent : ℚ
  coOccurrenceScore : ℚ
  bridgeScore : ℚ
  idfWeight : ℚ
  isGeneric : Bool
  centralityScore : ℚ
deriving DecidableEq

/-- The Step-3 loop body of compute_entity_graph_centrality for one entity
row: computes degree centrality, co-occurrence score, bridge score, IDF
weight and the blacklist-penalized composite centrality score. -/
def scoreRow (noteIds : List String) (inp : CentralityInput)
    (vaultTotalNotes : Option Nat) (row : DegreeRow) : ScoredInfo :=
  let totalNotes := noteIds.length
  let degree := row.connectedNotes.card
  let isGen := isGenericEntity row.entityName row.entityId
  let dc := degreeCentrality totalNotes degree
  let coCount := coOccurrenceCount inp.coocRows row.entityId
  let co := coScoreOf (maxCooccurrence inp.coocRows) coCount
  let br := bridgeScoreOf totalNotes degree
  let idf := idfWeightOf vaultTotalNotes totalNotes degree
  { name := row.entityName
    etype := row.entityType
    degree := degree
    coOccurrenceCnt := coCount
    degreeCent := dc
    coOccurrenceScore := co
    bridgeScore := br
    idfWeight := idf
    isGeneric := isGen
    centralityScore := rawCentrality dc co br idf * genericPenalty isGen }

/-- compute_entity_graph_centrality: empty input window or empty degree query
result yield the empty map; otherwise every returned entity row is scored by
the Step-3 loop.  (The degree query groups by entity, so entity ids are
distinct across rows.) -/
def compute_entity_graph_centrality (noteIds : List String)
    (inp : CentralityInput) (vaultTotalNotes : Option Nat) :
    List (String × ScoredInfo) :=
  if noteIds = [] then []
  else if inp.degreeRows = [] then []
  else inp.degreeRows.map (fun r => (r.entityId, scoreRow noteIds inp vaultTotalNotes r))

/-- Deduplication keeping first occurrences, the key order of a Python dict
built by insertion (auxiliary form with the set of already-seen keys). -/
def firstDedupAux {α : Type} [DecidableEq α] : List α → List α → List α
  | [], _ => []
  | t :: ts, seen =>
    if t ∈ seen then firstDedupAux ts seen
    else t :: firstDedupAux ts (t :: seen)

/-- Deduplication keeping first occurrences. -/
def firstDedup {α : Type} [DecidableEq α] (l : List α) : List α :=
  firstDedupAux l []

/-- Stable insertion (by descending score) used to model Python's stable
sorted(..., reverse=True): an element is placed before the first strictly
smaller-scored element, after equal-scored ones already present. -/
def insertDesc {α : Type} (score : α → ℚ) (x : α) : List α → List α
  | [] => [x]
  | y :: ys =>
    if score y < score x then x :: y :: ys else y :: insertDesc score x ys

/-- Stable descending sort by a rational score (model of Python
sorted(key=score, reverse=True)). -/
def sortDesc {α : Type} (score : α → ℚ) (l : List α) : List α :=
  l.foldr (fun x acc => insertDesc score x acc) []

/-- Hub tuple (entity_id, entity_name, centrality_score). -/
def hubTriple (p : String × ScoredInfo) : String × String × ℚ :=
  (p.1, p.2.name, p.2.centralityScore)

/-- find_cluster_hub_entities: sort non-blacklisted entities by centrality,
take the top k; if fewer than k survive the blacklist filter, backfill from
the full sorted pool, skipping tuples already present. -/
def find_cluster_hub_entities (entityInfo : List (String × ScoredInfo))
    (topK : Nat) (excludeGeneric : Bool) : List (String × String × ℚ) :=
  if entityInfo = [] then []
  else
    let filtered :=
      if excludeGeneric then entityInfo.filter (fun p => ¬ p.2.isGeneric) else entityInfo
    let sorted := sortDesc (fun p => p.2.centralityScore) filtered
    let result := (sorted.take topK).map hubTriple
    let result2 :=
      if result.length < topK ∧ excludeGeneric then
        (sortDesc (fun p => p.2.centralityScore) entityInfo).foldl
          (fun acc p =>
            if topK ≤ acc.length then acc
            else if hubTriple p ∈ acc then acc else acc ++ [hubTriple p])
          result
      else result
    result2.take topK

/-- Python max(items, key=value) over an insertion-ordered count dict:
first key attaining the maximal count. -/
def dominantKey : List (String × Nat) → String
  | [] => "Unknown"
  | p :: ps => (ps.foldl (fun best q => if best.2 < q.2 then q else best) p).1

/-- generate_cluster_name_from_graph: named after the top one or two hub
entities, falling back to the dominant type tag.  Python str.title() on the
single-word type tags used here coincides with String.capitalize. -/
def generate_cluster_name_from_graph (hubs : List (String × String × ℚ))
    (typeCounts : List (String × Nat)) : String :=
  match hubs with
  | [] => (dominantKey typeCounts).capitalize ++ " Cluster"
  | [h] => h.2.1 ++ " 중심"
  | h1 :: h2 :: _ => h1.2.1 ++ " & " ++ h2.2.1

/-- One row of the Louvain entity projection query: entity id, first label
and mention count.  The RETURN clause always produces the keys, but the
values backing entity_id and type can be null, hence the options. -/
structure LouvainEntity where
  entityId : Option String
  etype : Option String
  mentionCount : Nat
deriving DecidableEq

/-- Display form of the grouping key (Python renders None as the string
None inside f-strings). -/
def typeNameOf (t : Option String) : String :=
  match t with
  | some s => s
  | none => "None"

/-- Python truthiness filter on entity ids: None and the empty string are
dropped by the comprehension `if e.get("entity_id")`. -/
def truthyId (t : Option String) : Option String :=
  match t with
  | some s => if s.isEmpty then none else some s
  | none => none

/-- Cluster record produced by the terminal type-based clustering
(_simple_clustering). -/
structure SimpleCluster where
  id : String
  name : String
  level : Nat
  nodeCount : Nat
  entityIds : List String
  summary : String
  keyInsights : List String
  recentUpdates : Nat
  importanceScore : ℚ
  lastUpdated : Int
  lastComputed : Int
  clusteringMethod : String
  containsTypes : List (String × Nat)
deriving DecidableEq

/-- Enumeration of a list starting at a given index. -/
def enumFrom {α : Type} (n : Nat) : List α → List (Nat × α)
  | [] => []
  | x :: xs => (n, x) :: enumFrom (n + 1) xs

/-- The cluster built by _simple_clustering for one observed type tag. -/
def mkTypeCluster (entities : List LouvainEntity) (now : Int)
    (numbered : Nat × Option String) : SimpleCluster :=
  let t := numbered.2
  let group := entities.filter (fun e => e.etype = t)
  let totalMentions := (group.map (fun e => e.mentionCount)).sum
  { id := "cluster_" ++ toString numbered.1
    name := typeNameOf t ++ " Cluster"
    level := 1
    nodeCount := group.length
    entityIds := group.filterMap (fun e => truthyId e.entityId)
    summary := "Contains " ++ toString group.length ++ " " ++ typeNameOf t ++ " entities"
    keyInsights :=
      ["Total mentions: " ++ toString totalMentions,
       "Entity type: " ++ typeNameOf t]
    recentUpdates := 0
    importanceScore := min 10 ((totalMentions : ℚ) / 10)
    lastUpdated := now
    lastComputed := now
    clusteringMethod := "type_based"
    containsTypes := [((typeNameOf t).toLower, group.length)] }

/-- _simple_clustering: group the projected entities by their type tag (a
Python dict keyed in first-occurrence order, each bucket in input order,
extensionally a filter per observed tag) and emit one cluster per observed
tag, numbered from 1.  The relations and target-cluster arguments of the
Python function are unused there and omitted here. -/
def _simple_clustering (entities : List LouvainEntity) (now : Int) :
    List SimpleCluster :=
  (enumFrom 1 (firstDedup (entities.map (fun e => e.etype)))).map
    (mkTypeCluster entities now)

/-- Cluster record produced by the semantic (UMAP + HDBSCAN) path. -/
structure SemCluster where
  id : String
  name : String
  level : Nat
  nodeCount : Nat
  entityIds : List String
  sampleEntities : List String
  sampleNotes : List String
  noteIds : List String
  recentUpdates : Nat
  summary : String
  keyInsights : List String
  containsTypes : List (String × Nat)
  importanceScore : ℚ
  hubEntities : List (String × String × ℚ)
  lastUpdated : Int
  lastComputed : Int
  clusteringMethod : String
deriving DecidableEq

/-- A cluster dict in a result payload: the type-based and the semantic
paths produce records with different fields. -/
inductive ClusterRecord where
  | typeBased (c : SimpleCluster)
  | semantic (c : SemCluster)
deriving DecidableEq

/-- Weighted RELATED_TO edge between two clusters. -/
structure ClusterEdge where
  edgeFrom : String
  edgeTo : String
  relationType : String
  weight : ℚ
deriving DecidableEq

/-- Payload returned by compute_clusters_louvain / compute_clusters_semantic. -/
structure ClusterResult where
  clusters : List ClusterRecord
  edges : List ClusterEdge
  totalNodes : Nat
  method : String
  computedAt : Int
deriving DecidableEq

/-- compute_clusters_louvain: with no projected entities, an empty louvain
result; otherwise the _simple_clustering clusters.  The relations query
result is threaded to match the source but unused by _simple_clustering. -/
def compute_clusters_louvain (entities : List LouvainEntity)
    (relations : List (String × String × Nat)) (targetClusters : Nat)
    (now : Int) : ClusterResult :=
  if entities = [] then
    { clusters := [], edges := [], totalNodes := 0, method := "louvain", computedAt := now }
  else
    { clusters := (_simple_clustering entities now).map ClusterRecord.typeBased
      edges := []
      totalNodes := entities.length
      method := "louvain"
      computedAt := now }

/-- Ascending insertion for integer labels. -/
def insertAscZ (x : Int) : List Int → List Int
  | [] => [x]
  | y :: ys => if x ≤ y then x :: y :: ys else y :: insertAscZ x ys

/-- Ascending sort of integer labels (model of Python sorted on a set of
cluster labels). -/
def sortAscZ (l : List Int) : List Int :=
  l.foldr insertAscZ []

/-- Per-cluster type histogram: keys are lowercased type tags in
first-occurrence order, each counted over the whole list. -/
def buildTypeCounts (types : List String) : List (String × Nat) :=
  (firstDedup (types.map String.toLower)).map
    (fun t => (t, types.countP (fun s => s.toLower = t)))

/-- _compute_recency_bonus: number of updates within the last 7 days and a
bonus of max(0, 3 - days_since_latest/10); timestamps are epoch seconds,
timedelta.days is floor division by 86400. -/
def _compute_recency_bonus (updatedList : List (Option Int)) (now : Int) :
    ℚ × Nat :=
  let validDates := updatedList.filterMap id
  let recentThreshold := now - 7 * 86400
  let recentUpdates := validDates.countP (fun d => recentThreshold ≤ d)
  match validDates with
  | [] => (0, 0)
  | v :: vs =>
    let latest := vs.foldl max v
    let daysSinceLatest := max ((now - latest).fdiv 86400) 0
    (max 0 (3 - (daysSinceLatest : ℚ) / 10), recentUpdates)

/-- _build_graph_insights: rule-based insight strings derived from the hub
entities, recent activity, and dominant type.  fmt stands for Python's
two-decimal float formatting of the hub score (a float-rendering detail not
modelled further); apostrophes are written as the escape x27. -/
def _build_graph_insights (fmt : ℚ → String)
    (hubs : List (String × String × ℚ)) (recentUpdates : Nat)
    (typeCounts : List (String × Nat)) (noteCount : Nat) : List String :=
  let insights1 :=
    match hubs with
    | [] => []
    | top :: rest =>
      let hubName := top.2.1
      let first :=
        if 7/10 < top.2.2 then
          ["\x27" ++ hubName ++ "\x27이(가) 클러스터의 핵심 허브 역할 (중심성: " ++ fmt top.2.2 ++ ")"]
        else if 4/10 < top.2.2 then
          ["\x27" ++ hubName ++ "\x27이(가) 주요 연결점 (중심성: " ++ fmt top.2.2 ++ ")"]
        else
          ["\x27" ++ hubName ++ "\x27이(가) 클러스터 대표 개념"]
      let second :=
        match rest with
        | [] => []
        | h2 :: _ => ["관련 핵심 개념: " ++ h2.2.1]
      first ++ second
  let insights2 :=
    if 10 < noteCount then [toString noteCount ++ "개 노트가 이 주제로 연결됨 - 활발한 영역"]
    else if 5 < noteCount then [toString noteCount ++ "개 노트 연결 - 성장 중인 영역"]
    else [toString noteCount ++ "개 노트로 시작하는 영역"]
  let insights3 :=
    if 3 < recentUpdates then
      ["최근 7일간 " ++ toString recentUpdates ++ "회 업데이트 - 현재 활발히 작업 중"]
    else if 0 < recentUpdates then ["최근 " ++ toString recentUpdates ++ "회 업데이트"]
    else []
  let insights4 :=
    match typeCounts with
    | [] => []
    | _ :: _ =>
      let dt := dominantKey typeCounts
      if dt = "task" then ["🎯 액션: 연결된 태스크들 우선순위 검토"]
      else if dt = "project" then ["📋 액션: 프로젝트 마일스톤 점검"]
      else if dt = "topic" then ["💡 액션: 관련 노트들을 연결해 지식 네트워크 강화"]
      else []
  (insights1 ++ insights2 ++ insights3 ++ insights4).take 5

/-- One row of the note-embedding query: note id, title, parsed updated_at
(None when missing or unparsable), embedding vector. -/
structure NoteRow where
  noteId : String
  title : String
  updatedAt : Option Int
  embedding : List ℚ
deriving DecidableEq

/-- The UMAP constructor arguments used by compute_clusters_semantic. -/
structure UmapParams where
  nComponents : Nat
  nNeighbors : Nat
  minDist : ℚ
  metric : String
  randomState : Nat
deriving DecidableEq

/-- The HDBSCAN constructor arguments used by compute_clusters_semantic. -/
structure HdbscanParams where
  minClusterSize : Nat
  minSamples : Nat
  clusterSelectionEpsilon : ℚ
  clusterSelectionMethod : String
  metric : String
deriving DecidableEq

/-- UMAP parameters for n samples; random_state is fixed to 42 in the code,
so the ambient run randomness rng is never consulted. -/
def umapParamsOf (n : Nat) (rng : Nat) : UmapParams :=
  { nComponents := min 5 (n - 1)
    nNeighbors := max 2 (min 15 (n - 1))
    minDist := 1/10
    metric := "cosine"
    randomState := (some 42).getD rng }

/-- HDBSCAN parameters for n samples (min_cluster_size = max(5, n // 50)). -/
def hdbscanParamsOf (n : Nat) : HdbscanParams :=
  { minClusterSize := max 5 (n / 50)
    minSamples := 2
    clusterSelectionEpsilon := 1/10
    clusterSelectionMethod := "eom"
    metric := "euclidean" }

/-- Inputs of one compute_clusters_semantic call: availability of the
clustering libraries, whether some statement inside the try block raises
(the except branch), the note-embedding query rows, and the rows the
type-based fallback queries would return. -/
structure SemanticEnv where
  clusteringAvailable : Bool
  exnMidCompute : Bool
  noteRows : List NoteRow
  louvainEntities : List LouvainEntity
  louvainRelations : List (String × String × Nat)

/-- The HDBSCAN label vector: embeddings through seeded UMAP, then HDBSCAN
(deterministic, no seed argument in the code). -/
def semLabels (umap : UmapParams → List (List ℚ) → List (List ℚ))
    (hdb : HdbscanParams → List (List ℚ) → List Int)
    (env : SemanticEnv) (rng : Nat) : List Int :=
  let embeddings := env.noteRows.map (fun r => r.embedding)
  let n := embeddings.length
  hdb (hdbscanParamsOf n) (umap (umapParamsOf n rng) embeddings)

/-- The discovered cluster labels: distinct labels with the noise label -1
discarded, in ascending order (sorted(set(labels) - {-1})). -/
def semDistinctLabels (umap : UmapParams → List (List ℚ) → List (List ℚ))
    (hdb : HdbscanParams → List (List ℚ) → List Int)
    (env : SemanticEnv) (rng : Nat) : List Int :=
  sortAscZ ((firstDedup (semLabels umap hdb env rng)).filter (fun l => l ≠ -1))

/-- The Step-5 loop body of compute_clusters_semantic for one discovered
label: runs the graph-centrality analysis on the cluster notes (centOr
provides the two query results for that note window), skips the cluster if
no entity is found, otherwise assembles the cluster record.  The
three-decimal display rounding of hub scores is not modelled. -/
def buildSemanticCluster (fmt : ℚ → String)
    (centOr : List String → CentralityInput) (now : Int) (cid : Int)
    (rows : List NoteRow) : Option SemCluster :=
  let clusterNoteIds := rows.map (fun r => r.noteId)
  let entityInfo := compute_entity_graph_centrality clusterNoteIds (centOr clusterNoteIds) none
  if entityInfo = [] then none
  else
    let sorted := sortDesc (fun p => p.2.centralityScore) entityInfo
    let clusterEntityIds := sorted.map (fun p => p.1)
    let clusterEntityNames := sorted.map (fun p => p.2.name)
    let typeCounts := buildTypeCounts (sorted.map (fun p => p.2.etype))
    let hubs := find_cluster_hub_entities entityInfo 3 true
    let clusterName := generate_cluster_name_from_graph hubs typeCounts
    let avgCentrality :=
      ((entityInfo.map (fun p => p.2.centralityScore)).sum) /
        ((max entityInfo.length 1 : Nat) : ℚ)
    let rb := _compute_recency_bonus (rows.map (fun r => r.updatedAt)) now
    some
      { id := "cluster_" ++ toString (cid + 1)
        name := clusterName
        level := 1
        nodeCount := clusterEntityIds.length
        entityIds := clusterEntityIds
        sampleEntities := clusterEntityNames.take 10
        sampleNotes := (rows.map (fun r => r.title)).take 5
        noteIds := clusterNoteIds.take 20
        recentUpdates := rb.2
        summary := clusterName ++ " 클러스터 (" ++ toString clusterEntityIds.length ++ " 엔티티)"
        keyInsights := _build_graph_insights fmt hubs rb.2 typeCounts clusterNoteIds.length
        containsTypes := typeCounts
        importanceScore := min 10 (avgCentrality * 8 + rb.1)
        hubEntities := hubs
        lastUpdated := now
        lastComputed := now
        clusteringMethod := "umap_hdbscan_graph_centrality" }

/-- The semantic clusters, one per discovered label in ascending label
order, empty-entity clusters skipped. -/
def semBuiltClusters (fmt : ℚ → String)
    (umap : UmapParams → List (List ℚ) → List (List ℚ))
    (hdb : HdbscanParams → List (List ℚ) → List Int)
    (centOr : List String → CentralityInput)
    (env : SemanticEnv) (rng : Nat) (now : Int) : List SemCluster :=
  let rowsLabeled := env.noteRows.zip (semLabels umap hdb env rng)
  (semDistinctLabels umap hdb env rng).filterMap
    (fun cid =>
      buildSemanticCluster fmt centOr now cid
        ((rowsLabeled.filter (fun p => p.2 = cid)).map (fun p => p.1)))

/-- Ordered pairs (i, j) with i before j, in nested-loop order. -/
def clusterPairs {α : Type} : List α → List (α × α)
  | [] => []
  | x :: xs => (xs.map (fun y => (x, y))) ++ clusterPairs xs

/-- Size of set(a.entity_ids) ∩ set(b.entity_ids). -/
def sharedEntityCount (a b : SemCluster) : Nat :=
  ((a.entityIds.dedup).filter (fun i => i ∈ b.entityIds)).length

/-- _build_cluster_edges: a weighted RELATED_TO edge for each unordered pair
of clusters sharing at least one entity id. -/
def _build_cluster_edges (clusters : List SemCluster) : List ClusterEdge :=
  if clusters.length < 2 then []
  else
    (clusterPairs clusters).filterMap
      (fun pr =>
        if pr.1.entityIds = [] ∨ pr.2.entityIds = [] then none
        else
          let shared := sharedEntityCount pr.1 pr.2
          if shared = 0 then none
          else
            some
              { edgeFrom := pr.1.id
                edgeTo := pr.2.id
                relationType := "RELATED_TO"
                weight := (shared : ℚ) })

/-- _semantic_fallback_to_type_based: the type-based louvain result with the
method string replaced by the tagged fallback reason. -/
def semanticFallback (env : SemanticEnv) (reason : String)
    (targetClusters : Nat) (now : Int) : ClusterResult :=
  let r := compute_clusters_louvain env.louvainEntities env.louvainRelations targetClusters now
  { r with method := "umap_hdbscan_fallback:" ++ reason }

/-- compute_clusters_semantic: the semantic pipeline with its fallback
chain.  Triggers, in source order: missing clustering dependency; any
exception raised inside the try block (placed here right after the
availability check, covering every later step); empty embedding query
result; fewer than 5 embeddings; zero discovered non-noise labels; empty
final cluster list.  The fallback path is embedded as total: the code would
re-enter the except branch only if the terminal type-based computation
itself raised. -/
def compute_clusters_semantic (fmt : ℚ → String)
    (umap : UmapParams → List (List ℚ) → List (List ℚ))
    (hdb : HdbscanParams → List (List ℚ) → List Int)
    (centOr : List String → CentralityInput)
    (env : SemanticEnv) (rng : Nat) (targetClusters : Nat) (now : Int) :
    ClusterResult :=
  if ¬env.clusteringAvailable then semanticFallback env "dependency_missing" targetClusters now
  else if env.exnMidCompute then semanticFallback env "exception" targetClusters now
  else if env.noteRows = [] then semanticFallback env "no_embeddings" targetClusters now
  else if env.noteRows.length < 5 then semanticFallback env "insufficient_samples" targetClusters now
  else if semDistinctLabels umap hdb env rng = [] then
    semanticFallback env "no_clusters" targetClusters now
  else
    let clusters := semBuiltClusters fmt umap hdb centOr env rng now
    if clusters = [] then semanticFallback env "empty_result" targetClusters now
    else
      { clusters := clusters.map ClusterRecord.semantic
        edges := _build_cluster_edges clusters
        totalNodes := (clusters.map (fun c => c.nodeCount)).sum
        method := "umap_hdbscan"
        computedAt := now }

/-- Substring containment for the method provenance string. -/
def ContainsSub (pat s : String) : Prop :=
  ∃ p q, s = p ++ pat ++ q

/-- The member-id list of a result cluster record (the partition view of a
clustering result). -/
def recordEntityIds : ClusterRecord → List String
  | ClusterRecord.typeBased c => c.entityIds
  | ClusterRecord.semantic c => c.entityIds

/-- The hub-selection view of a result cluster record (type-based clusters
carry no hub entities). -/
def recordHubs : ClusterRecord → List (String × String × ℚ)
  | ClusterRecord.typeBased _ => []
  | ClusterRecord.semantic c => c.hubEntities

/-- The max(n.updated_at) value the staleness query returns: either a value
that stands for (or parses to) a datetime, or a string _parse_datetime
rejects (the code then falls through to not-a-datetime and returns False). -/
inductive LastUpdatedVal where
  | timestamp (t : Int)
  | unparsable
deriving DecidableEq

/-- is_cluster_cache_stale.  computedAt: none models a missing or empty
computed_at argument (Python falsy), some none a string _parse_datetime
rejects, some (some t) one parsing to t.  lastUpdated: none models an empty
query result or a null max(updated_at) (no source notes). -/
def is_cluster_cache_stale (computedAt : Option (Option Int))
    (lastUpdated : Option LastUpdatedVal) : Bool :=
  match computedAt with
  | none => true
  | some none => true
  | some (some t) =>
    match lastUpdated with
    | none => false
    | some LastUpdatedVal.unparsable => false
    | some (LastUpdatedVal.timestamp u) => decide (t < u)

/-- Assignment-map lookup with the default -1 of dict.get(uuid, -1). -/
def lookupD (m : List (String × Int)) (k : String) : Int :=
  match m.find? (fun p => p.1 = k) with
  | some p => p.2
  | none => -1

/-- max(embedding_clusters.values()) if embedding_clusters else 0. -/
def maxEmbeddingVal (emb : List (String × Int)) : Int :=
  match emb.map Prod.snd with
  | [] => 0
  | v :: vs => vs.foldl max v

/-- set(graph_clusters.keys()) | set(embedding_clusters.keys()); Python set
iteration order is unspecified, determinized here as first-occurrence
order over graph keys then embedding keys. -/
def allUuidsOf (graph emb : List (String × Int)) : List String :=
  firstDedup (graph.map Prod.fst ++ emb.map Prod.fst)

/-- First merge pass for one id: a valid embedding cluster wins; otherwise a
valid graph cluster is offset past the embedding ids; otherwise -1. -/
def phase1Val (graph emb : List (String × Int)) (u : String) : Int :=
  let e := lookupD emb u
  let g := lookupD graph u
  if 0 ≤ e then e
  else if 0 ≤ g then maxEmbeddingVal emb + 1 + g
  else -1

/-- The final_clusters dict after the first merge pass. -/
def phase1 (graph emb : List (String × Int)) : List (String × Int) :=
  (allUuidsOf graph emb).map (fun u => (u, phase1Val graph emb u))

/-- defaultdict(int) increment preserving key insertion order. -/
def bumpCount (counts : List (Int × Nat)) (c : Int) : List (Int × Nat) :=
  if counts.any (fun p => p.1 = c) then
    counts.map (fun p => if p.1 = c then (p.1, p.2 + 1) else p)
  else counts ++ [(c, 1)]

/-- max(cluster_counts, key=cluster_counts.get): the first key attaining
the maximal count, in insertion order. -/
def argmaxCount : List (Int × Nat) → Option Int
  | [] => none
  | p :: ps => some ((ps.foldl (fun best q => if best.2 < q.2 then q else best) p).1)

/-- In-place dict update final_clusters[k] = v. -/
def setVal (m : List (String × Int)) (k : String) (v : Int) : List (String × Int) :=
  m.map (fun p => if p.1 = k then (k, v) else p)

/-- One iteration of the noise-reassignment loop of
merge_cluster_assignments: a noise id with a valid graph cluster adopts the
most frequent final id among its graph peers, when any peer has one. -/
def reassignNoiseStep (graph : List (String × Int))
    (acc : List (String × Int)) (u : String) : List (String × Int) :=
  let g := lookupD graph u
  if 0 ≤ g then
    let sameGraph := (graph.filter (fun p => p.2 = g ∧ p.1 ≠ u)).map Prod.fst
    if sameGraph = [] then acc
    else
      let counts :=
        sameGraph.foldl
          (fun cs u2 =>
            let c := lookupD acc u2
            if 0 ≤ c then bumpCount cs c else cs)
          []
      match argmaxCount counts with
      | some best => setVal acc u best
      | none => acc
  else acc

/-- The noise-reassignment loop, over the ids that were -1 after the first
pass (the list is computed once, the dict is updated as the loop runs). -/
def reassignNoise (graph final0 : List (String × Int)) : List (String × Int) :=
  ((final0.filter (fun p => p.2 = -1)).map Prod.fst).foldl
    (reassignNoiseStep graph) final0

/-- max(c for c in final_clusters.values() if c >= 0), defaulting to -1. -/
def maxNonneg (m : List (String × Int)) : Int :=
  match (m.map Prod.snd).filter (fun v => 0 ≤ v) with
  | [] => -1
  | v :: vs => vs.foldl max v

/-- Final pass: every remaining -1 receives the next value of a monotonic
counter, in dict order. -/
def assignFresh : List (String × Int) → Int → List (String × Int)
  | [], _ => []
  | p :: rest, n =>
    if p.2 = -1 then (p.1, n) :: assignFresh rest (n + 1)
    else p :: assignFresh rest n

/-- merge_cluster_assignments (the graph_weight and embedding_weight
parameters of the Python function are unused there and omitted here). -/
def merge_cluster_assignments (graph emb : List (String × Int)) :
    List (String × Int) :=
  let f1 := phase1 graph emb
  let f2 := reassignNoise graph f1
  assignFresh f2 (maxNonneg f2 + 1)

/-- type_to_cluster.get(e.get("pkm_type", "Topic"), 3): the PKM Core 8
mapping, with Person mapped to Topic (3) and anything unrecognized
(including a null pkm_type) defaulting to 3. -/
def typeToCluster (t : Option String) : Nat :=
  match t with
  | none => 3
  | some s =>
    if s = "Goal" then 0
    else if s = "Project" then 1
    else if s = "Task" then 2
    else if s = "Topic" then 3
    else if s = "Concept" then 4
    else if s = "Question" then 5
    else if s = "Insight" then 6
    else if s = "Resource" then 7
    else if s = "Person" then 3
    else 3

/-- One entity row consumed by the hybrid entity clustering (output of
get_entities_with_embeddings). -/
structure HybridEntity where
  uuid : String
  name : String
  summary : String
  pkmType : Option String
  embedding : Option (List ℚ)
  mentionCount : Nat
deriving DecidableEq

/-- cluster_by_pkm_type: every entity is assigned the cluster index of its
PKM type. -/
def cluster_by_pkm_type (entities : List HybridEntity) : List (String × Nat) :=
  entities.map (fun e => (e.uuid, typeToCluster e.pkmType))

/-- Static PKM type info (id, display name, description). -/
structure PkmTypeInfo where
  tid : String
  tname : String
  tdescription : String
deriving DecidableEq

/-- The PKM_TYPES table of compute_entity_clusters_hybrid, with its .get
default used for indices outside 0..7. -/
def PKM_TYPES : Nat → PkmTypeInfo
  | 0 => ⟨"Goal", "🎯 Goal", "장기 목표"⟩
  | 1 => ⟨"Project", "📁 Project", "진행 중인 프로젝트"⟩
  | 2 => ⟨"Task", "✅ Task", "실행 가능한 할일"⟩
  | 3 => ⟨"Topic", "📚 Topic", "주제/분야"⟩
  | 4 => ⟨"Concept", "💡 Concept", "개념/아이디어"⟩
  | 5 => ⟨"Question", "❓ Question", "탐구할 질문"⟩
  | 6 => ⟨"Insight", "✨ Insight", "통찰/발견"⟩
  | 7 => ⟨"Resource", "📎 Resource", "참고 자료"⟩
  | _ => ⟨"Topic", "📚 Topic", "주제"⟩

/-- Cluster record of the hybrid entity clustering. -/
structure HybridCluster where
  id : String
  name : String
  pkmType : String
  description : String
  entityCount : Nat
  entityUuids : List String
  sampleEntities : List String
  typeDistribution : List (String × Nat)
  internalEdges : Nat
  cohesionScore : ℚ
  computedAt : Int
deriving DecidableEq

/-- uuid_to_entity dict lookup: on duplicate uuids a Python dict keeps the
last entry. -/
def dictLastLookup (entities : List HybridEntity) (u : String) :
    Option HybridEntity :=
  entities.reverse.find? (fun e => e.uuid = u)

/-- The cluster compute_entity_clusters_hybrid builds for one of the eight
core type indices. -/
def mkHybridCluster (entities : List HybridEntity)
    (relatesToEdges : List (String × String × ℚ)) (now : Int) (cid : Nat) :
    HybridCluster :=
  let uuids := ((cluster_by_pkm_type entities).filter (fun p => p.2 = cid)).map Prod.fst
  let tinfo := PKM_TYPES cid
  let clusterEntities :=
    sortDesc (fun e => (e.mentionCount : ℚ)) (uuids.filterMap (dictLastLookup entities))
  let internalEdges := relatesToEdges.countP (fun t => t.1 ∈ uuids ∧ t.2.1 ∈ uuids)
  { id := "cluster_" ++ tinfo.tid.toLower
    name := tinfo.tname
    pkmType := tinfo.tid
    description := tinfo.tdescription
    entityCount := uuids.length
    entityUuids := uuids
    sampleEntities := (clusterEntities.map (fun e => e.name)).take 10
    typeDistribution := [(tinfo.tid, uuids.length)]
    internalEdges := internalEdges
    cohesionScore := (internalEdges : ℚ) / ((max uuids.length 1 : Nat) : ℚ)
    computedAt := now }

/-- Semantic edge information inferred from a PKM type pair. -/
structure SemanticEdgeInfo where
  edgeType : String
  edgeLabel : String
  description : String
deriving DecidableEq

/-- PKM_EDGE_TYPE_MATRIX: (from_type, to_type) to
(edge_type, edge_label_ko, description). -/
def PKM_EDGE_TYPE_MATRIX :
    List ((String × String) × (String × String × String)) :=
  [(("Goal", "Project"), ("ACHIEVED_BY", "달성 수단", "이 목표는 이 프로젝트로 달성")),
   (("Goal", "Task"), ("REQUIRES", "필요 태스크", "목표 달성에 필요한 작업")),
   (("Goal", "Goal"), ("CONTRIBUTES_TO", "기여", "하위 목표가 상위 목표에 기여")),
   (("Goal", "Topic"), ("FOCUSES_ON", "집중 영역", "목표가 집중하는 주제")),
   (("Goal", "Concept"), ("APPLIES", "적용 개념", "목표에 적용되는 개념")),
   (("Project", "Task"), ("REQUIRES", "필요 작업", "프로젝트 완료에 필요한 태스크")),
   (("Project", "Goal"), ("CONTRIBUTES_TO", "목표 기여", "프로젝트가 기여하는 목표")),
   (("Project", "Project"), ("DEPENDS_ON", "의존", "프로젝트 간 의존성")),
   (("Project", "Topic"), ("INVOLVES", "관련 주제", "프로젝트 관련 주제")),
   (("Project", "Concept"), ("USES", "사용 개념", "프로젝트에서 사용하는 개념")),
   (("Project", "Resource"), ("REFERENCES", "참고 자료", "프로젝트 참고 자료")),
   (("Project", "Question"), ("EXPLORES", "탐구 질문", "프로젝트에서 탐구하는 질문")),
   (("Project", "Insight"), ("PRODUCES", "도출 인사이트", "프로젝트에서 도출된 통찰")),
   (("Task", "Task"), ("BLOCKS", "선행 작업", "이 태스크가 선행되어야 함")),
   (("Task", "Project"), ("PART_OF", "소속 프로젝트", "태스크가 속한 프로젝트")),
   (("Task", "Topic"), ("INVOLVES", "관련 주제", "태스크 관련 주제")),
   (("Task", "Concept"), ("USES", "사용 개념", "태스크에서 사용하는 개념")),
   (("Task", "Resource"), ("REFERENCES", "참고 자료", "태스크 참고 자료")),
   (("Task", "Insight"), ("PRODUCES", "도출 인사이트", "태스크에서 얻은 통찰")),
   (("Topic", "Topic"), ("RELATED_TO", "연관 주제", "연관된 주제 영역")),
   (("Topic", "Concept"), ("CONTAINS", "포함 개념", "주제에 포함된 개념")),
   (("Topic", "Project"), ("APPLIED_IN", "적용 프로젝트", "주제가 적용된 프로젝트")),
   (("Topic", "Resource"), ("DOCUMENTED_IN", "문서화", "주제가 문서화된 자료")),
   (("Topic", "Question"), ("RAISES", "제기 질문", "주제에서 제기되는 질문")),
   (("Topic", "Insight"), ("REVEALS", "드러난 통찰", "주제에서 드러난 인사이트")),
   (("Concept", "Concept"), ("RELATES_TO", "관련 개념", "연관된 개념")),
   (("Concept", "Topic"), ("BELONGS_TO", "소속 주제", "개념이 속한 주제")),
   (("Concept", "Project"), ("APPLIED_IN", "적용처", "개념이 적용된 프로젝트")),
   (("Concept", "Task"), ("USED_IN", "사용처", "개념이 사용된 태스크")),
   (("Concept", "Resource"), ("DEFINED_IN", "정의 출처", "개념이 정의된 자료")),
   (("Question", "Insight"), ("ANSWERED_BY", "답변", "질문에 대한 답변 인사이트")),
   (("Question", "Topic"), ("ABOUT", "관련 주제", "질문의 주제")),
   (("Question", "Question"), ("LEADS_TO", "연결 질문", "이 질문이 이끄는 후속 질문")),
   (("Question", "Project"), ("EXPLORED_IN", "탐구처", "질문이 탐구되는 프로젝트")),
   (("Question", "Resource"), ("ADDRESSED_IN", "다룬 자료", "질문을 다루는 자료")),
   (("Insight", "Resource"), ("DERIVED_FROM", "출처", "인사이트의 출처 자료")),
   (("Insight", "Insight"), ("SUPPORTS", "뒷받침", "인사이트 간 뒷받침 관계")),
   (("Insight", "Question"), ("ANSWERS", "답변 대상", "인사이트가 답변하는 질문")),
   (("Insight", "Project"), ("INFORMS", "적용처", "인사이트가 적용되는 프로젝트")),
   (("Insight", "Topic"), ("ABOUT", "관련 주제", "인사이트의 주제")),
   (("Insight", "Concept"), ("CLARIFIES", "명확화", "인사이트가 명확히 하는 개념")),
   (("Resource", "Topic"), ("COVERS", "다루는 주제", "자료가 다루는 주제")),
   (("Resource", "Concept"), ("DEFINES", "정의 개념", "자료가 정의하는 개념")),
   (("Resource", "Resource"), ("CITES", "인용", "자료 간 인용 관계")),
   (("Resource", "Question"), ("ADDRESSES", "다루는 질문", "자료가 다루는 질문")),
   (("Resource", "Insight"), ("PROVIDES", "제공 인사이트", "자료에서 제공하는 통찰")),
   (("Resource", "Project"), ("INFORMS", "정보 제공", "프로젝트에 정보 제공")),
   (("Person", "Project"), ("WORKS_ON", "작업 중", "사람이 작업 중인 프로젝트")),
   (("Person", "Task"), ("ASSIGNED_TO", "담당", "사람에게 할당된 태스크")),
   (("Person", "Topic"), ("INTERESTED_IN", "관심 분야", "사람의 관심 주제")),
   (("Person", "Person"), ("COLLABORATES_WITH", "협력", "협력 관계"))]

/-- infer_semantic_edge_type: matrix lookup with generic RELATES_TO
fallback.  A falsy (empty) type normalizes to Topic; the optional fact
argument only matters at a different call site and is omitted here. -/
def infer_semantic_edge_type (fromType toType : String) : SemanticEdgeInfo :=
  let ft := if fromType.isEmpty then "Topic" else fromType
  let tt := if toType.isEmpty then "Topic" else toType
  match PKM_EDGE_TYPE_MATRIX.find? (fun p => p.1 = (ft, tt)) with
  | some p => ⟨p.2.1, p.2.2.1, p.2.2.2⟩
  | none => ⟨"RELATES_TO", "관련", ft ++ "와 " ++ tt ++ " 간의 관계"⟩

/-- tuple(sorted([a, b])): the unordered pair key. -/
def pairKey (a b : String) : String × String :=
  if a ≤ b then (a, b) else (b, a)

/-- defaultdict(int) increment over unordered cluster pairs, preserving key
insertion order. -/
def bumpPairCount (counts : List ((String × String) × Nat))
    (k : String × String) : List ((String × String) × Nat) :=
  if counts.any (fun p => p.1 = k) then
    counts.map (fun p => if p.1 = k then (p.1, p.2 + 1) else p)
  else counts ++ [(k, 1)]

/-- Inter-cluster edge of the hybrid clustering (has an extra label). -/
structure HybridEdge where
  edgeFrom : String
  edgeTo : String
  weight : Nat
  relationType : String
  label : String
deriving DecidableEq

/-- uuid to owning cluster id, dict built cluster by cluster (last wins). -/
def uuidClusterPairs (clusters : List HybridCluster) : List (String × String) :=
  clusters.foldl (fun acc c => acc ++ c.entityUuids.map (fun u => (u, c.id))) []

/-- Last-wins dict lookup on the uuid-to-cluster map. -/
def lookupLastPair (pairs : List (String × String)) (u : String) :
    Option String :=
  (pairs.reverse.find? (fun p => p.1 = u)).map Prod.snd

/-- {c.id: c.pkm_type} lookup with default Topic. -/
def clusterTypeOf (clusters : List HybridCluster) (cid : String) : String :=
  match clusters.reverse.find? (fun c => c.id = cid) with
  | some c => c.pkmType
  | none => "Topic"

/-- _compute_cluster_edges: count RELATES_TO edges crossing cluster
boundaries per unordered cluster pair, then emit one semantic edge per pair
(label falling back to the edge type when empty). -/
def _compute_cluster_edges (clusters : List HybridCluster)
    (relatesToEdges : List (String × String × ℚ)) : List HybridEdge :=
  let pairs := uuidClusterPairs clusters
  let counts :=
    relatesToEdges.foldl
      (fun cs t =>
        match lookupLastPair pairs t.1, lookupLastPair pairs t.2.1 with
        | some fc, some tc => if fc ≠ tc then bumpPairCount cs (pairKey fc tc) else cs
        | _, _ => cs)
      []
  counts.filterMap
    (fun pc =>
      if 1 ≤ pc.2 then
        let si := infer_semantic_edge_type (clusterTypeOf clusters pc.1.1)
          (clusterTypeOf clusters pc.1.2)
        some
          { edgeFrom := pc.1.1
            edgeTo := pc.1.2
            weight := pc.2
            relationType := si.edgeType
            label := if si.edgeLabel.isEmpty then si.edgeType else si.edgeLabel }
      else none)

/-- Payload of compute_entity_clusters_hybrid (the empty-input result lacks
the clustered_entities and pkm_types_found keys, hence the options). -/
structure HybridResult where
  clusters : List HybridCluster
  edges : List HybridEdge
  totalEntities : Nat
  clusteredEntities : Option Nat
  method : String
  pkmTypesFound : Option Nat
  computedAt : Int
deriving DecidableEq

/-- compute_entity_clusters_hybrid: with no entities an empty result;
otherwise exactly the eight core-type clusters for indices 0..7 plus the
inter-cluster edges.  Entity rows and RELATES_TO edge rows are the query
results the function would fetch. -/
def compute_entity_clusters_hybrid (entities : List HybridEntity)
    (relatesToEdges : List (String × String × ℚ)) (now : Int) : HybridResult :=
  if entities = [] then
    { clusters := [], edges := [], totalEntities := 0, clusteredEntities := none
      method := "pkm_type", pkmTypesFound := none, computedAt := now }
  else
    let clusters := (List.range 8).map (mkHybridCluster entities relatesToEdges now)
    { clusters := clusters
      edges := _compute_cluster_edges clusters relatesToEdges
      totalEntities := entities.length
      clusteredEntities := some ((clusters.map (fun c => c.entityCount)).sum)
      method := "pkm_type"
      pkmTypesFound := some ((firstDedup ((cluster_by_pkm_type entities).map Prod.snd)).length)
      computedAt := now }

/-- Fresh singleton ids for entity uuids the Louvain communities missed. -/
def addMissingUuids (assigned : List (String × Int)) (next : Int) :
    List String → List (String × Int)
  | [] => assigned
  | u :: us =>
    if assigned.any (fun p => p.1 = u) then addMissingUuids assigned next us
    else addMissingUuids (assigned ++ [(u, next)]) (next + 1) us

/-- cluster_by_graph_louvain: networkx-missing fallback (one community),
no-edges fallback (one singleton per uuid), otherwise seeded Louvain
communities (seed fixed to 42; louvain is the library oracle taking the
effective seed, the resolution and the projected graph) plus fresh ids for
unconnected nodes.  The except fallback of the source is not reachable
here: the oracle is total. -/
def cluster_by_graph_louvain
    (louvain : Nat → ℚ → List String → List (String × String × ℚ) → List (List String))
    (networkxAvailable : Bool) (rng : Nat) (entityUuids : List String)
    (edges : List (String × String × ℚ)) (resolution : ℚ) :
    List (String × Int) :=
  if ¬networkxAvailable then entityUuids.map (fun u => (u, 0))
  else if edges = [] then (enumFrom 0 entityUuids).map (fun p => (p.2, (p.1 : Int)))
  else
    let communities := louvain ((some 42).getD rng) resolution entityUuids edges
    let assigned :=
      (enumFrom 0 communities).foldl
        (fun acc p => acc ++ p.2.map (fun u => (u, (p.1 : Int)))) []
    addMissingUuids assigned (communities.length : Int) entityUuids

/-- Effects the clustered-vault-graph route can have on the cluster cache. -/
inductive CacheOp where
  | read
  | write
deriving DecidableEq

/-- Query parameters of GET /graph/vault/clustered that drive the cache
logic. -/
structure RouteRequest where
  warmup : Bool
  forceRecompute : Bool
  folderPref : Option String
  methodParam : String

/-- Outcomes of the collaborator calls the route makes: whether
get_cached_clusters returns a payload, whether that payload is stale, and
whether the background warmup compute produces any cluster (its cache write
is conditional on that). -/
structure RouteEnv where
  cachedAvailable : Bool
  cacheStale : Bool
  warmupClustersNonempty : Bool

/-- Python truthiness of the folder_prefix query parameter. -/
def folderTruthy (fp : Option String) : Bool :=
  match fp with
  | none => false
  | some s => ¬s.isEmpty

/-- Whether the method parameter survives the valid-method check. -/
def validMethodParam (m : String) : Bool :=
  m.toLower = "semantic" ∨ m.toLower = "auto" ∨ m.toLower = "type_based" ∨ m.toLower = "type"

/-- The cluster-cache operations a get_clustered_vault_graph request
performs, in order.  warmup=true short-circuits into the background
warmup, which computes the unfiltered semantic clusters and writes the
cache when they are non-empty.  Otherwise: the cache is read only when
force_recompute is false and folder_prefix is falsy; a fresh cache hit
returns without writing; an invalid method raises before any write; and
the computed result is written back only when folder_prefix is falsy. -/
def clusteredVaultGraphCacheOps (req : RouteRequest) (env : RouteEnv) :
    List CacheOp :=
  if req.warmup then
    if env.warmupClustersNonempty then [CacheOp.write] else []
  else
    let filtered := folderTruthy req.folderPref
    let readOps : List CacheOp :=
      if ¬req.forceRecompute ∧ ¬filtered then [CacheOp.read] else []
    if ¬req.forceRecompute ∧ ¬filtered ∧ env.cachedAvailable ∧ ¬env.cacheStale then
      readOps
    else if ¬(validMethodParam req.methodParam) then readOps
    else readOps ++ (if ¬filtered then [CacheOp.write] else [])

/-- The stored cluster-cache state after a request: unchanged unless the
request performed a write (set stores a fresh entry, last-writer-wins). -/
def cacheAfterOps {α : Type} (ops : List CacheOp) (s : Option α) (fresh : α) :
    Option α :=
  if CacheOp.write ∈ ops then some fresh else s

theorem idfWeightOf_bounds (vt : Option Nat) (n d : Nat) :
    3/10 ≤ idfWeightOf vt n d ∧ idfWeightOf vt n d ≤ 1 := by
  unfold idfWeightOf
  split
  · dsimp only
    split
    case isTrue h =>
      constructor
      · exact le_max_left _ _
      · refine max_le (by norm_num) ?hl
        have h0 : (0:ℚ) ≤ ((d:ℚ) / (n:ℚ) - 1/2) * (3/2) := by
          have := le_of_lt h
          nlinarith
        linarith
    case isFalse h => norm_num
  · norm_num

theorem bridgeScoreOf_bounds (n d : Nat) :
    0 ≤ bridgeScoreOf n d ∧ bridgeScoreOf n d ≤ 1 := by
  unfold bridgeScoreOf
  split
  · constructor
    · refine le_min (by norm_num) ?hx
      refine div_nonneg (Nat.cast_nonneg d) ?hd
      exact le_trans (by norm_num) (le_max_left 3 _)
    · exact min_le_left _ _
  · norm_num

theorem coScoreOf_bounds (m c : Nat) (h : c ≤ m) :
    0 ≤ coScoreOf m c ∧ coScoreOf m c ≤ 1 := by
  unfold coScoreOf
  have hden : (0:ℚ) < ((max m 1 : Nat) : ℚ) := by
    exact_mod_cast Nat.lt_of_lt_of_le Nat.zero_lt_one (le_max_right m 1)
  constructor
  · exact div_nonneg (Nat.cast_nonneg c) (le_of_lt hden)
  · refine (div_le_one hden).mpr ?hle
    exact_mod_cast le_trans h (le_max_left m 1)

theorem degreeCentrality_bounds (n d : Nat) (h : d ≤ n) :
    0 ≤ degreeCentrality n d ∧ degreeCentrality n d ≤ 1 := by
  unfold degreeCentrality
  have hden : (0:ℚ) < ((max n 1 : Nat) : ℚ) := by
    exact_mod_cast Nat.lt_of_lt_of_le Nat.zero_lt_one (le_max_right n 1)
  constructor
  · exact div_nonneg (Nat.cast_nonneg d) (le_of_lt hden)
  · refine (div_le_one hden).mpr ?hle
    exact_mod_cast le_trans h (le_max_left n 1)

theorem scoreRow_centrality_bounds (noteIds : List String)
    (inp : CentralityInput) (vt : Option Nat) (row : DegreeRow)
    (hdeg : row.connectedNotes.card ≤ noteIds.length)
    (hco : coOccurrenceCount inp.coocRows row.entityId ≤ maxCooccurrence inp.coocRows) :
    0 ≤ (scoreRow noteIds inp vt row).centralityScore ∧
      (scoreRow noteIds inp vt row).centralityScore ≤ 1 := by
  have hdc := degreeCentrality_bounds noteIds.length row.connectedNotes.card hdeg
  have hcs := coScoreOf_bounds (maxCooccurrence inp.coocRows)
    (coOccurrenceCount inp.coocRows row.entityId) hco
  have hbr := bridgeScoreOf_bounds noteIds.length row.connectedNotes.card
  have hidf := idfWeightOf_bounds vt noteIds.length row.connectedNotes.card
  show 0 ≤ rawCentrality _ _ _ _ * genericPenalty _ ∧
    rawCentrality _ _ _ _ * genericPenalty _ ≤ 1
  unfold rawCentrality genericPenalty
  rcases hdc with ⟨hdc0, hdc1⟩
  rcases hcs with ⟨hcs0, hcs1⟩
  rcases hbr with ⟨hbr0, hbr1⟩
  rcases hidf with ⟨hidf0, hidf1⟩
  split
  · constructor
    · nlinarith
    · nlinarith
  · constructor
    · nlinarith
    · nlinarith

/-- C2: every entity scored by compute_entity_graph_centrality over a
non-empty note window has a composite centrality score in the unit
interval, given that its connected-note set lies inside the window and its
co-occurrence count is at most the window maximum. -/
theorem centrality_score_in_unit_interval (noteIds : List String)
    (inp : CentralityInput) (vt : Option Nat) (row : DegreeRow)
    (hmem : row ∈ inp.degreeRows) (hW : noteIds ≠ [])
    (hsub : ∀ n ∈ row.connectedNotes, n ∈ noteIds)
    (hco : coOccurrenceCount inp.coocRows row.entityId ≤ maxCooccurrence inp.coocRows) :
    (row.entityId, scoreRow noteIds inp vt row) ∈
        compute_entity_graph_centrality noteIds inp vt ∧
      0 ≤ (scoreRow noteIds inp vt row).centralityScore ∧
      (scoreRow noteIds inp vt row).centralityScore ≤ 1 := by
  have hrows : inp.degreeRows ≠ [] := by
    intro h
    rw [h] at hmem
    exact (List.not_mem_nil row) hmem
  have hdeg : row.connectedNotes.card ≤ noteIds.length := by
    have h1 : row.connectedNotes ⊆ noteIds.toFinset := by
      intro a ha
      exact List.mem_toFinset.mpr (hsub a ha)
    exact le_trans (Finset.card_le_card h1) noteIds.toFinset_card_le
  refine ⟨?hm, scoreRow_centrality_bounds noteIds inp vt row hdeg hco⟩
  unfold compute_entity_graph_centrality
  rw [if_neg hW, if_neg hrows]
  exact List.mem_map.mpr ⟨row, hmem, rfl⟩

theorem centrality_score_in_unit_interval_witness :
    0 ≤ (scoreRow ["n1", "n2"]
          ⟨[⟨"e1", "E1", "Topic", {"n1", "n2"}⟩], []⟩ none
          ⟨"e1", "E1", "Topic", {"n1", "n2"}⟩).centralityScore ∧
      (scoreRow ["n1", "n2"]
          ⟨[⟨"e1", "E1", "Topic", {"n1", "n2"}⟩], []⟩ none
          ⟨"e1", "E1", "Topic", {"n1", "n2"}⟩).centralityScore ≤ 1 :=
  (centrality_score_in_unit_interval ["n1", "n2"]
      ⟨[⟨"e1", "E1", "Topic", {"n1", "n2"}⟩], []⟩ none
      ⟨"e1", "E1", "Topic", {"n1", "n2"}⟩
      (by simp) (by simp) (by decide) (by decide)).2

/-- C3: for every entity scored over a non-empty window, the composite
score equals denylist_penalty times 0.30·degree_centrality + 0.25·co_score
+ 0.25·bridge_score + 0.20·idf_weight, with penalty 0.1 for denylisted
names and 1.0 otherwise and the claimed bridge formula; the idf weight is
1.0 for coverage up to one half, beyond that a linear decay with floor 0.3,
staying in [0.3, 1], and an entity mentioned in every window document gets
exactly 0.3. -/
theorem centrality_score_formula (noteIds : List String)
    (inp : CentralityInput) (row : DegreeRow)
    (hmem : row ∈ inp.degreeRows) (hW : noteIds ≠ [])
    (hdeg : 0 < row.connectedNotes.card) :
    (row.entityId, scoreRow noteIds inp none row) ∈
        compute_entity_graph_centrality noteIds inp none ∧
      (scoreRow noteIds inp none row).centralityScore =
        (if isGenericEntity row.entityName row.entityId then (1:ℚ)/10 else 1) *
          (3/10 * ((row.connectedNotes.card : ℚ) / (noteIds.length : ℚ)) +
            1/4 * coScoreOf (maxCooccurrence inp.coocRows)
              (coOccurrenceCount inp.coocRows row.entityId) +
            1/4 * (if 1 < row.connectedNotes.card then
                min 1 ((row.connectedNotes.card : ℚ) /
                  max 3 ((noteIds.length : ℚ) * (1/5)))
              else 0) +
            1/5 * idfWeightOf none noteIds.length row.connectedNotes.card) ∧
      ((row.connectedNotes.card : ℚ) / (noteIds.length : ℚ) ≤ 1/2 →
        idfWeightOf none noteIds.length row.connectedNotes.card = 1) ∧
      (1/2 < (row.connectedNotes.card : ℚ) / (noteIds.length : ℚ) →
        idfWeightOf none noteIds.length row.connectedNotes.card =
          max (3/10)
            (1 - ((row.connectedNotes.card : ℚ) / (noteIds.length : ℚ) - 1/2) * (3/2))) ∧
      (3/10 ≤ idfWeightOf none noteIds.length row.connectedNotes.card ∧
        idfWeightOf none noteIds.length row.connectedNotes.card ≤ 1) ∧
      (row.connectedNotes.card = noteIds.length →
        idfWeightOf none noteIds.length row.connectedNotes.card = 3/10) := by
  have hWpos : 0 < noteIds.length := List.length_pos.mpr hW
  have hrows : inp.degreeRows ≠ [] := by
    intro h
    rw [h] at hmem
    exact (List.not_mem_nil row) hmem
  have hmax : max noteIds.length 1 = noteIds.length := Nat.max_eq_left (by omega)
  have hvault : 0 < vaultSizeOf none noteIds.length := hWpos
  refine ⟨?hm, ?hf, ?hidf1, ?hidf2, idfWeightOf_bounds none _ _, ?hidf3⟩
  case hm =>
    unfold compute_entity_graph_centrality
    rw [if_neg hW, if_neg hrows]
    exact List.mem_map.mpr ⟨row, hmem, rfl⟩
  case hf =>
    show rawCentrality _ _ _ _ * genericPenalty _ = _
    unfold rawCentrality genericPenalty degreeCentrality bridgeScoreOf
    rw [hmax, mul_comm]
  case hidf1 =>
    intro hcov
    unfold idfWeightOf
    rw [if_pos ⟨hvault, hdeg⟩]
    dsimp only
    rw [if_neg (not_lt.mpr hcov)]
  case hidf2 =>
    intro hcov
    unfold idfWeightOf
    rw [if_pos ⟨hvault, hdeg⟩]
    dsimp only
    rw [if_pos hcov]
  case hidf3 =>
    intro hfull
    have hne : ((noteIds.length : ℚ)) ≠ 0 := by
      have : (0:ℚ) < (noteIds.length : ℚ) := by exact_mod_cast hWpos
      exact ne_of_gt this
    unfold idfWeightOf
    rw [if_pos ⟨hvault, hdeg⟩]
    dsimp only
    rw [hfull]
    have hone : ((noteIds.length : ℚ)) / ((noteIds.length : ℚ)) = 1 :=
      div_self hne
    rw [hone, if_pos (by norm_num : (1:ℚ)/2 < 1)]
    norm_num

theorem centrality_score_formula_witness :
    idfWeightOf none (["n1", "n2"].length)
        (({"n1", "n2"} : Finset String).card) = 3/10 :=
  (centrality_score_formula ["n1", "n2"]
      ⟨[⟨"e1", "E1", "Topic", {"n1", "n2"}⟩], []⟩
      ⟨"e1", "E1", "Topic", {"n1", "n2"}⟩
      (by simp) (by simp) (by decide)).2.2.2.2.2 (by decide)

/-- C6: the staleness check returns true when computed_at is missing or
unparsable; with a parsed computed_at it returns false when no source
documents are found for the scope, and otherwise it returns true exactly
when the maximal source updated_at strictly exceeds computed_at. -/
theorem cache_staleness_check (t u : Int) (lu : Option LastUpdatedVal) :
    is_cluster_cache_stale none lu = true ∧
      is_cluster_cache_stale (some none) lu = true ∧
      is_cluster_cache_stale (some (some t)) none = false ∧
      (is_cluster_cache_stale (some (some t))
          (some (LastUpdatedVal.timestamp u)) = true ↔ t < u) := by
  refine ⟨rfl, rfl, rfl, ?hcmp⟩
  simp [is_cluster_cache_stale]

theorem cache_staleness_check_witness :
    is_cluster_cache_stale (some (some 0)) (some (LastUpdatedVal.timestamp 1)) = true :=
  (cache_staleness_check 0 1 none).2.2.2.mpr (by decide)

/-- C1: every fallback trigger of compute_clusters_semantic (dependency
missing, exception inside the try block, no embeddings, fewer than 5
embeddings, zero discovered clusters, empty final cluster list) yields the
type-based louvain result whose method string is the tagged fallback
reason, and in particular a window of exactly 3 embeddings yields a method
string containing insufficient_samples. -/
theorem semantic_clustering_fallback (fmt : ℚ → String)
    (umap : UmapParams → List (List ℚ) → List (List ℚ))
    (hdb : HdbscanParams → List (List ℚ) → List Int)
    (centOr : List String → CentralityInput)
    (env : SemanticEnv) (rng : Nat) (tc : Nat) (now : Int) :
    (env.clusteringAvailable = false →
      compute_clusters_semantic fmt umap hdb centOr env rng tc now =
        semanticFallback env "dependency_missing" tc now) ∧
    (env.clusteringAvailable = true → env.exnMidCompute = true →
      compute_clusters_semantic fmt umap hdb centOr env rng tc now =
        semanticFallback env "exception" tc now) ∧
    (env.clusteringAvailable = true → env.exnMidCompute = false →
      env.noteRows = [] →
      compute_clusters_semantic fmt umap hdb centOr env rng tc now =
        semanticFallback env "no_embeddings" tc now) ∧
    (env.clusteringAvailable = true → env.exnMidCompute = false →
      env.noteRows ≠ [] → env.noteRows.length < 5 →
      compute_clusters_semantic fmt umap hdb centOr env rng tc now =
        semanticFallback env "insufficient_samples" tc now) ∧
    (env.clusteringAvailable = true → env.exnMidCompute = false →
      5 ≤ env.noteRows.length → semDistinctLabels umap hdb env rng = [] →
      compute_clusters_semantic fmt umap hdb centOr env rng tc now =
        semanticFallback env "no_clusters" tc now) ∧
    (env.clusteringAvailable = true → env.exnMidCompute = false →
      5 ≤ env.noteRows.length → semDistinctLabels umap hdb env rng ≠ [] →
      semBuiltClusters fmt umap hdb centOr env rng now = [] →
      compute_clusters_semantic fmt umap hdb centOr env rng tc now =
        semanticFallback env "empty_result" tc now) ∧
    (∀ reason : String,
      (semanticFallback env reason tc now).clusters =
          (compute_clusters_louvain env.louvainEntities env.louvainRelations tc now).clusters ∧
        (semanticFallback env reason tc now).method =
          "umap_hdbscan_fallback:" ++ reason) ∧
    (env.clusteringAvailable = true → env.exnMidCompute = false →
      env.noteRows.length = 3 →
      ContainsSub "insufficient_samples"
        (compute_clusters_semantic fmt umap hdb centOr env rng tc now).method) := by
  refine ⟨?c1, ?c2, ?c3, ?c4, ?c5, ?c6, ?c7, ?c8⟩
  case c1 =>
    intro h
    simp [compute_clusters_semantic, h]
  case c2 =>
    intro h1 h2
    simp [compute_clusters_semantic, h1, h2]
  case c3 =>
    intro h1 h2 h3
    simp [compute_clusters_semantic, h1, h2, h3]
  case c4 =>
    intro h1 h2 h3 h4
    simp [compute_clusters_semantic, h1, h2, h3, h4]
  case c5 =>
    intro h1 h2 h3 h4
    have h5 : ¬(env.noteRows.length < 5) := not_lt.mpr h3
    have h6 : env.noteRows ≠ [] := by
      intro hh
      rw [hh] at h3
      simp at h3
    simp [compute_clusters_semantic, h1, h2, h5, h6, h4]
  case c6 =>
    intro h1 h2 h3 h4 h5
    have h6 : ¬(env.noteRows.length < 5) := not_lt.mpr h3
    have h7 : env.noteRows ≠ [] := by
      intro hh
      rw [hh] at h3
      simp at h3
    simp [compute_clusters_semantic, h1, h2, h6, h7, h4, h5]
  case c7 =>
    intro reason
    exact ⟨rfl, rfl⟩
  case c8 =>
    intro h1 h2 h3
    have h4 : env.noteRows.length < 5 := by omega
    have h5 : env.noteRows ≠ [] := by
      intro hh
      rw [hh] at h3
      simp at h3
    have hm : (compute_clusters_semantic fmt umap hdb centOr env rng tc now).method =
        "umap_hdbscan_fallback:" ++ "insufficient_samples" := by
      simp [compute_clusters_semantic, semanticFallback, h1, h2, h4, h5]
    exact ⟨"umap_hdbscan_fallback:", "", by rw [hm]; rfl⟩

theorem semantic_clustering_fallback_witness :
    ContainsSub "insufficient_samples"
      (compute_clusters_semantic (fun _ => "") (fun _ d => d) (fun _ _ => [])
        (fun _ => ⟨[], []⟩)
        ⟨true, false,
          [⟨"n1", "t1", none, [1]⟩, ⟨"n2", "t2", none, [2]⟩, ⟨"n3", "t3", none, [3]⟩],
          [], []⟩
        0 10 0).method :=
  (semantic_clustering_fallback (fun _ => "") (fun _ d => d) (fun _ _ => [])
      (fun _ => ⟨[], []⟩)
      ⟨true, false,
        [⟨"n1", "t1", none, [1]⟩, ⟨"n2", "t2", none, [2]⟩, ⟨"n3", "t3", none, [3]⟩],
        [], []⟩
      0 10 0).2.2.2.2.2.2.2 rfl rfl rfl

theorem firstDedupAux_mem {α : Type} [DecidableEq α] :
    ∀ (l seen : List α) (a : α),
      a ∈ firstDedupAux l seen ↔ (a ∈ l ∧ a ∉ seen) := by
  intro l
  induction l with
  | nil => intro seen a; simp [firstDedupAux]
  | cons t ts ih =>
    intro seen a
    unfold firstDedupAux
    by_cases ht : t ∈ seen
    · rw [if_pos ht, ih]
      constructor
      · rintro ⟨h1, h2⟩
        exact ⟨List.mem_cons_of_mem t h1, h2⟩
      · rintro ⟨h1, h2⟩
        rcases List.mem_cons.mp h1 with h | h
        · exact absurd (h ▸ ht) h2
        · exact ⟨h, h2⟩
    · rw [if_neg ht]
      simp only [List.mem_cons, ih]
      constructor
      · rintro (h | ⟨h1, h2⟩)
        · refine ⟨Or.inl h, ?hs⟩
          rw [h]
          exact ht
        · exact ⟨Or.inr h1, fun hs => h2 (Or.inr hs)⟩
      · rintro ⟨h1 | h1, h2⟩
        · exact Or.inl h1
        · by_cases hat : a = t
          · exact Or.inl hat
          · refine Or.inr ⟨h1, ?hn⟩
            rintro (h | h)
            · exact hat h
            · exact h2 h

theorem firstDedupAux_nodup {α : Type} [DecidableEq α] :
    ∀ (l seen : List α), (firstDedupAux l seen).Nodup := by
  intro l
  induction l with
  | nil => intro seen; simp [firstDedupAux]
  | cons t ts ih =>
    intro seen
    unfold firstDedupAux
    by_cases ht : t ∈ seen
    · rw [if_pos ht]; exact ih seen
    · rw [if_neg ht]
      refine List.nodup_cons.mpr ⟨?hn, ih (t :: seen)⟩
      intro hmem
      exact ((firstDedupAux_mem ts (t :: seen) t).mp hmem).2 (List.mem_cons_self t seen)

theorem firstDedup_mem {α : Type} [DecidableEq α] (l : List α) (a : α) :
    a ∈ firstDedup l ↔ a ∈ l := by
  unfold firstDedup
  rw [firstDedupAux_mem]
  simp

theorem firstDedup_nodup {α : Type} [DecidableEq α] (l : List α) :
    (firstDedup l).Nodup :=
  firstDedupAux_nodup l []

theorem firstDedup_ne_nil {α : Type} [DecidableEq α] (l : List α)
    (h : l ≠ []) : firstDedup l ≠ [] := by
  cases l with
  | nil => exact absurd rfl h
  | cons x xs =>
    unfold firstDedup firstDedupAux
    rw [if_neg (List.not_mem_nil x)]
    exact List.cons_ne_nil x _

theorem enumFrom_length {α : Type} :
    ∀ (l : List α) (n : Nat), (enumFrom n l).length = l.length := by
  intro l
  induction l with
  | nil => intro n; rfl
  | cons x xs ih => intro n; simp [enumFrom, ih]

theorem zip_enumFrom_map {α β : Type} (f : Nat × α → β) :
    ∀ (l : List α) (n : Nat) (p : β × α),
      p ∈ ((enumFrom n l).map f).zip l → ∃ k, p.1 = f (k, p.2) := by
  intro l
  induction l with
  | nil => intro n p h; simp at h
  | cons a as ih =>
    intro n p h
    simp only [enumFrom, List.map_cons, List.zip_cons_cons, List.mem_cons] at h
    rcases h with h | h
    · exact ⟨n, by rw [h]⟩
    · exact ih (n + 1) p h

/-- C7: the terminal type-based clustering yields exactly one cluster per
observed type tag (the tag list is duplicate-free and covers exactly the
observed tags), each cluster importance is min(10, total_mentions/10) over
its entities, and at least one entity guarantees at least one cluster. -/
theorem type_based_clustering_properties (entities : List LouvainEntity)
    (now : Int) :
    (_simple_clustering entities now).length =
        (firstDedup (entities.map (fun e => e.etype))).length ∧
      (firstDedup (entities.map (fun e => e.etype))).Nodup ∧
      (∀ t, t ∈ firstDedup (entities.map (fun e => e.etype)) ↔
        t ∈ entities.map (fun e => e.etype)) ∧
      (∀ p ∈ (_simple_clustering entities now).zip
          (firstDedup (entities.map (fun e => e.etype))),
        p.1.importanceScore =
            min 10
              ((((entities.filter (fun e => e.etype = p.2)).map
                  (fun e => e.mentionCount)).sum : ℚ) / 10) ∧
          p.1.nodeCount = (entities.filter (fun e => e.etype = p.2)).length ∧
          p.1.name = typeNameOf p.2 ++ " Cluster" ∧
          p.1.clusteringMethod = "type_based") ∧
      (entities ≠ [] → _simple_clustering entities now ≠ []) := by
  refine ⟨?hlen, firstDedup_nodup _, fun t => firstDedup_mem _ t, ?hzip, ?hne⟩
  case hlen =>
    unfold _simple_clustering
    rw [List.length_map, enumFrom_length]
  case hzip =>
    intro p hp
    have hk := zip_enumFrom_map (mkTypeCluster entities now) _ 1 p hp
    rcases hk with ⟨k, hk⟩
    rw [hk]
    refine ⟨rfl, rfl, rfl, rfl⟩
  case hne =>
    intro h
    unfold _simple_clustering
    intro hc
    have h1 : entities.map (fun e => e.etype) ≠ [] := by
      intro hm
      exact h (List.map_eq_nil_iff.mp hm)
    have h2 := firstDedup_ne_nil _ h1
    rcases hl : firstDedup (entities.map (fun e => e.etype)) with _ | ⟨x, xs⟩
    · exact h2 hl
    · rw [hl] at hc
      simp [enumFrom] at hc

theorem type_based_clustering_properties_witness :
    _simple_clustering [⟨some "a", some "Topic", 5⟩] 0 ≠ [] :=
  (type_based_clustering_properties [⟨some "a", some "Topic", 5⟩] 0).2.2.2.2
    (by simp)

theorem lookupD_cons (p : String × Int) (rest : List (String × Int))
    (u : String) :
    lookupD (p :: rest) u = if p.1 = u then p.2 else lookupD rest u := by
  by_cases h : p.1 = u
  · simp [lookupD, List.find?, h]
  · simp [lookupD, List.find?, h]

theorem lookupD_map_self (f : String → Int) :
    ∀ (l : List String) (u : String), u ∈ l →
      lookupD (l.map (fun x => (x, f x))) u = f u := by
  intro l
  induction l with
  | nil => intro u h; simp at h
  | cons x xs ih =>
    intro u h
    rw [List.map_cons, lookupD_cons]
    by_cases hx : (x, f x).1 = u
    · rw [if_pos hx]
      have : x = u := hx
      rw [this]
    · rw [if_neg hx]
      rcases List.mem_cons.mp h with h1 | h1
      · exact absurd h1.symm hx
      · exact ih u h1

theorem le_foldl_max_init : ∀ (l : List Int) (b : Int), b ≤ l.foldl max b := by
  intro l
  induction l with
  | nil => intro b; exact le_refl b
  | cons x xs ih =>
    intro b
    exact le_trans (le_max_left b x) (ih (max b x))

theorem mem_le_foldl_max :
    ∀ (l : List Int) (b a : Int), a ∈ l → a ≤ l.foldl max b := by
  intro l
  induction l with
  | nil => intro b a h; simp at h
  | cons x xs ih =>
    intro b a h
    rcases List.mem_cons.mp h with h1 | h1
    · rw [h1]
      exact le_trans (le_max_right b x) (le_foldl_max_init xs (max b x))
    · exact ih (max b x) a h1

theorem maxEmbeddingVal_ge (emb : List (String × Int))
    (he : ∀ v ∈ emb.map Prod.snd, -1 ≤ v) : -1 ≤ maxEmbeddingVal emb := by
  unfold maxEmbeddingVal
  rcases h : emb.map Prod.snd with _ | ⟨v, vs⟩
  · norm_num
  · have hv : -1 ≤ v := by
      refine he v ?hm
      rw [h]
      exact List.mem_cons_self v vs
    exact le_trans hv (le_foldl_max_init vs v)

theorem phase1Val_ge_neg_one (graph emb : List (String × Int)) (u : String)
    (he : ∀ v ∈ emb.map Prod.snd, -1 ≤ v) : -1 ≤ phase1Val graph emb u := by
  unfold phase1Val
  dsimp only
  split
  case isTrue h => omega
  case isFalse h =>
    split
    case isTrue h2 =>
      have := maxEmbeddingVal_ge emb he
      omega
    case isFalse h2 => omega

theorem phase1Val_eq_neg_one (graph emb : List (String × Int)) (u : String)
    (he : ∀ v ∈ emb.map Prod.snd, -1 ≤ v)
    (h : phase1Val graph emb u = -1) :
    lookupD emb u < 0 ∧ lookupD graph u < 0 := by
  unfold phase1Val at h
  dsimp only at h
  by_cases h1 : 0 ≤ lookupD emb u
  · rw [if_pos h1] at h
    omega
  · rw [if_neg h1] at h
    by_cases h2 : 0 ≤ lookupD graph u
    · rw [if_pos h2] at h
      have := maxEmbeddingVal_ge emb he
      omega
    · exact ⟨lt_of_not_le h1, lt_of_not_le h2⟩

theorem phase1_keys (graph emb : List (String × Int)) :
    (phase1 graph emb).map Prod.fst = allUuidsOf graph emb := by
  unfold phase1
  rw [List.map_map]
  exact List.map_id _

theorem phase1_lookup (graph emb : List (String × Int)) (u : String)
    (h : u ∈ allUuidsOf graph emb) :
    lookupD (phase1 graph emb) u = phase1Val graph emb u :=
  lookupD_map_self (phase1Val graph emb) (allUuidsOf graph emb) u h

theorem phase1_mem (graph emb : List (String × Int)) (p : String × Int)
    (h : p ∈ phase1 graph emb) :
    p.2 = phase1Val graph emb p.1 ∧ p.1 ∈ allUuidsOf graph emb := by
  unfold phase1 at h
  rcases List.mem_map.mp h with ⟨u, hu, hp⟩
  rw [← hp]
  exact ⟨rfl, hu⟩

theorem reassignNoiseStep_id (graph : List (String × Int))
    (acc : List (String × Int)) (u : String) (h : lookupD graph u < 0) :
    reassignNoiseStep graph acc u = acc := by
  unfold reassignNoiseStep
  dsimp only
  rw [if_neg (not_le.mpr h)]

theorem foldl_reassign_const (graph : List (String × Int)) :
    ∀ (ns : List String) (acc : List (String × Int)),
      (∀ u ∈ ns, lookupD graph u < 0) →
      ns.foldl (reassignNoiseStep graph) acc = acc := by
  intro ns
  induction ns with
  | nil => intro acc h; rfl
  | cons x xs ih =>
    intro acc h
    rw [List.foldl_cons, reassignNoiseStep_id graph acc x (h x (List.mem_cons_self x xs))]
    exact ih acc (fun u hu => h u (List.mem_cons_of_mem x hu))

theorem reassignNoise_id (graph f0 : List (String × Int))
    (h : ∀ p ∈ f0, p.2 = -1 → lookupD graph p.1 < 0) :
    reassignNoise graph f0 = f0 := by
  unfold reassignNoise
  refine foldl_reassign_const graph _ f0 ?hall
  intro u hu
  rcases List.mem_map.mp hu with ⟨p, hp, hpu⟩
  have hf := List.mem_filter.mp hp
  have hval : p.2 = -1 := by
    have := hf.2
    simpa using this
  rw [← hpu]
  exact h p hf.1 hval

theorem maxNonneg_ge_neg_one (m : List (String × Int)) : -1 ≤ maxNonneg m := by
  unfold maxNonneg
  rcases h : (m.map Prod.snd).filter (fun v => 0 ≤ v) with _ | ⟨v, vs⟩
  · rw [h]
  · rw [h]
    have hv : (0:Int) ≤ v := by
      have hmem : v ∈ (m.map Prod.snd).filter (fun v => 0 ≤ v) := by
        rw [h]
        exact List.mem_cons_self v vs
      have := (List.mem_filter.mp hmem).2
      simpa using this
    have := le_foldl_max_init vs v
    dsimp only
    omega

theorem le_maxNonneg (m : List (String × Int)) (p : String × Int)
    (hp : p ∈ m) (hv : 0 ≤ p.2) : p.2 ≤ maxNonneg m := by
  unfold maxNonneg
  have hmem : p.2 ∈ (m.map Prod.snd).filter (fun v => 0 ≤ v) := by
    refine List.mem_filter.mpr ⟨List.mem_map.mpr ⟨p, hp, rfl⟩, ?hd⟩
    simpa using hv
  rcases h : (m.map Prod.snd).filter (fun v => 0 ≤ v) with _ | ⟨v, vs⟩
  · rw [h] at hmem
    simp at hmem
  · rw [h] at hmem
    rw [h]
    dsimp only
    rcases List.mem_cons.mp hmem with h1 | h1
    · rw [h1]
      exact le_foldl_max_init vs v
    · exact mem_le_foldl_max vs v p.2 h1

theorem assignFresh_keys :
    ∀ (l : List (String × Int)) (n : Int),
      (assignFresh l n).map Prod.fst = l.map Prod.fst := by
  intro l
  induction l with
  | nil => intro n; rfl
  | cons p rest ih =>
    intro n
    unfold assignFresh
    by_cases h : p.2 = -1
    · rw [if_pos h]
      simp [ih]
    · rw [if_neg h]
      simp [ih]

theorem assignFresh_lookup_keep :
    ∀ (l : List (String × Int)) (n : Int) (u : String),
      lookupD l u ≠ -1 →
      lookupD (assignFresh l n) u = lookupD l u := by
  intro l
  induction l with
  | nil => intro n u _; rfl
  | cons p rest ih =>
    intro n u hne
    rw [lookupD_cons] at hne
    unfold assignFresh
    by_cases hp : p.2 = -1
    · rw [if_pos hp, lookupD_cons, lookupD_cons]
      by_cases hu : p.1 = u
      · rw [if_pos hu] at hne
        exact absurd hp hne
      · rw [if_neg hu] at hne
        rw [if_neg hu, if_neg hu]
        exact ih (n + 1) u hne
    · rw [if_neg hp, lookupD_cons, lookupD_cons]
      by_cases hu : p.1 = u
      · rw [if_pos hu, if_pos hu]
      · rw [if_neg hu] at hne
        rw [if_neg hu, if_neg hu]
        exact ih n u hne

theorem assignFresh_values :
    ∀ (l : List (String × Int)) (n : Int) (q : String × Int),
      q ∈ assignFresh l n → (q ∈ l ∧ q.2 ≠ -1) ∨ n ≤ q.2 := by
  intro l
  induction l with
  | nil => intro n q h; simp [assignFresh] at h
  | cons p rest ih =>
    intro n q h
    unfold assignFresh at h
    by_cases hp : p.2 = -1
    · rw [if_pos hp] at h
      rcases List.mem_cons.mp h with h1 | h1
      · right
        rw [h1]
      · rcases ih (n + 1) q h1 with ⟨h2, h3⟩ | h2
        · exact Or.inl ⟨List.mem_cons_of_mem p h2, h3⟩
        · right
          omega
    · rw [if_neg hp] at h
      rcases List.mem_cons.mp h with h1 | h1
      · exact Or.inl ⟨by rw [h1]; exact List.mem_cons_self p rest, by rw [h1]; exact hp⟩
      · rcases ih n q h1 with ⟨h2, h3⟩ | h2
        · exact Or.inl ⟨List.mem_cons_of_mem p h2, h3⟩
        · exact Or.inr h2

theorem assignFresh_lookup_fresh_ge :
    ∀ (l : List (String × Int)) (n : Int) (u : String),
      lookupD l u = -1 → u ∈ l.map Prod.fst →
      n ≤ lookupD (assignFresh l n) u := by
  intro l
  induction l with
  | nil => intro n u _ hm; simp at hm
  | cons p rest ih =>
    intro n u hl hm
    rw [lookupD_cons] at hl
    unfold assignFresh
    by_cases hp : p.2 = -1
    · rw [if_pos hp, lookupD_cons]
      by_cases hu : p.1 = u
      · rw [if_pos hu]
      · rw [if_neg hu] at hl
        rw [if_neg hu]
        have hm2 : u ∈ rest.map Prod.fst := by
          rw [List.map_cons] at hm
          rcases List.mem_cons.mp hm with h1 | h1
          · exact absurd h1.symm hu
          · exact h1
        have := ih (n + 1) u hl hm2
        omega
    · rw [if_neg hp, lookupD_cons]
      by_cases hu : p.1 = u
      · rw [if_pos hu] at hl
        exact absurd hl hp
      · rw [if_neg hu] at hl
        rw [if_neg hu]
        have hm2 : u ∈ rest.map Prod.fst := by
          rw [List.map_cons] at hm
          rcases List.mem_cons.mp hm with h1 | h1
          · exact absurd h1.symm hu
          · exact h1
        exact ih n u hl hm2

theorem assignFresh_fresh_distinct :
    ∀ (l : List (String × Int)) (n : Int) (u : String),
      u ∈ l.map Prod.fst → lookupD l u = -1 →
      (∀ p ∈ l, p.2 ≠ -1 → p.2 < n) →
      ∀ q ∈ assignFresh l n, q.1 ≠ u →
        q.2 ≠ lookupD (assignFresh l n) u := by
  intro l
  induction l with
  | nil => intro n u hm; simp at hm
  | cons p rest ih =>
    intro n u hm hl hbound q hq hqu
    rw [lookupD_cons] at hl
    unfold assignFresh at hq ⊢
    by_cases hp : p.2 = -1
    · rw [if_pos hp] at hq ⊢
      rw [lookupD_cons]
      by_cases hu : p.1 = u
      · rw [if_pos hu]
        rcases List.mem_cons.mp hq with h1 | h1
        · exfalso
          apply hqu
          rw [h1]
          exact hu
        · rcases assignFresh_values rest (n + 1) q h1 with ⟨h2, h3⟩ | h2
          · have := hbound q (List.mem_cons_of_mem p h2) h3
            omega
          · omega
      · rw [if_neg hu] at hl
        rw [if_neg hu]
        have hm2 : u ∈ rest.map Prod.fst := by
          rw [List.map_cons] at hm
          rcases List.mem_cons.mp hm with h1 | h1
          · exact absurd h1.symm hu
          · exact h1
        have hge := assignFresh_lookup_fresh_ge rest (n + 1) u hl hm2
        rcases List.mem_cons.mp hq with h1 | h1
        · rw [h1]
          dsimp only
          omega
        · refine ih (n + 1) u hm2 hl ?hb q h1 hqu
          intro r hr hrne
          have := hbound r (List.mem_cons_of_mem p hr) hrne
          omega
    · rw [if_neg hp] at hq ⊢
      rw [lookupD_cons]
      by_cases hu : p.1 = u
      · rw [if_pos hu] at hl
        exact absurd hl hp
      · rw [if_neg hu] at hl
        rw [if_neg hu]
        have hm2 : u ∈ rest.map Prod.fst := by
          rw [List.map_cons] at hm
          rcases List.mem_cons.mp hm with h1 | h1
          · exact absurd h1.symm hu
          · exact h1
        have hge := assignFresh_lookup_fresh_ge rest n u hl hm2
        rcases List.mem_cons.mp hq with h1 | h1
        · rw [h1]
          have := hbound p (List.mem_cons_self p rest) hp
          omega
        · exact ih n u hm2 hl
            (fun r hr hrne => hbound r (List.mem_cons_of_mem p hr) hrne) q h1 hqu

theorem reassignNoise_phase1_id (graph emb : List (String × Int))
    (he : ∀ v ∈ emb.map Prod.snd, -1 ≤ v) :
    reassignNoise graph (phase1 graph emb) = phase1 graph emb := by
  refine reassignNoise_id graph _ ?hall
  intro p hp hpv
  have h1 := phase1_mem graph emb p hp
  have h2 := phase1Val_eq_neg_one graph emb p.1 he (by rw [← h1.1]; exact hpv)
  exact h2.2

theorem merge_unfold (graph emb : List (String × Int))
    (he : ∀ v ∈ emb.map Prod.snd, -1 ≤ v) :
    merge_cluster_assignments graph emb =
      assignFresh (phase1 graph emb) (maxNonneg (phase1 graph emb) + 1) := by
  unfold merge_cluster_assignments
  dsimp only
  rw [reassignNoise_phase1_id graph emb he]

/-- C4: in the merged assignment, an id with a valid embedding cluster
keeps it regardless of the graph signal, and an id with only a valid graph
cluster receives its graph cluster offset by the maximal embedding cluster
id plus one, a disjoint id space. -/
theorem merge_priority (graph emb : List (String × Int)) (u : String)
    (he : ∀ v ∈ emb.map Prod.snd, -1 ≤ v)
    (hu : u ∈ allUuidsOf graph emb) :
    (0 ≤ lookupD emb u →
      lookupD (merge_cluster_assignments graph emb) u = lookupD emb u) ∧
      (lookupD emb u < 0 → 0 ≤ lookupD graph u →
        lookupD (merge_cluster_assignments graph emb) u =
          lookupD graph u + maxEmbeddingVal emb + 1) := by
  have hm := merge_unfold graph emb he
  constructor
  · intro hemb
    have hval : phase1Val graph emb u = lookupD emb u := by
      unfold phase1Val
      dsimp only
      rw [if_pos hemb]
    have hlk : lookupD (phase1 graph emb) u = lookupD emb u := by
      rw [phase1_lookup graph emb u hu, hval]
    have hne : lookupD (phase1 graph emb) u ≠ -1 := by
      rw [hlk]
      omega
    rw [hm, assignFresh_lookup_keep _ _ u hne, hlk]
  · intro hemb hg
    have hval : phase1Val graph emb u =
        maxEmbeddingVal emb + 1 + lookupD graph u := by
      unfold phase1Val
      dsimp only
      rw [if_neg (not_le.mpr hemb), if_pos hg]
    have hlk : lookupD (phase1 graph emb) u =
        maxEmbeddingVal emb + 1 + lookupD graph u := by
      rw [phase1_lookup graph emb u hu, hval]
    have hme := maxEmbeddingVal_ge emb he
    have hne : lookupD (phase1 graph emb) u ≠ -1 := by
      rw [hlk]
      omega
    rw [hm, assignFresh_lookup_keep _ _ u hne, hlk]
    omega

theorem merge_priority_witness :
    lookupD (merge_cluster_assignments [("a", 0)] [("a", -1), ("b", 2)]) "a" =
        lookupD [("a", 0)] "a" + maxEmbeddingVal [("a", -1), ("b", 2)] + 1 ∧
      lookupD (merge_cluster_assignments [("a", 0)] [("a", -1), ("b", 2)]) "b" =
        lookupD [("a", -1), ("b", 2)] "b" :=
  ⟨(merge_priority [("a", 0)] [("a", -1), ("b", 2)] "a" (by decide)
      (by decide)).2 (by decide) (by decide),
    (merge_priority [("a", 0)] [("a", -1), ("b", 2)] "b" (by decide)
      (by decide)).1 (by decide)⟩

/-- C5: the merge returns a total partition: its keys are exactly the ids
of either input, each key exactly once, every final id is nonnegative, and
an id unresolved in both inputs receives a singleton id distinct from every
other id in the output. -/
theorem merge_totality (graph emb : List (String × Int))
    (he : ∀ v ∈ emb.map Prod.snd, -1 ≤ v) :
    (merge_cluster_assignments graph emb).map Prod.fst = allUuidsOf graph emb ∧
      ((merge_cluster_assignments graph emb).map Prod.fst).Nodup ∧
      (∀ u, u ∈ (merge_cluster_assignments graph emb).map Prod.fst ↔
        (u ∈ graph.map Prod.fst ∨ u ∈ emb.map Prod.fst)) ∧
      (∀ p ∈ merge_cluster_assignments graph emb, 0 ≤ p.2) ∧
      (∀ u ∈ allUuidsOf graph emb, lookupD emb u < 0 → lookupD graph u < 0 →
        ∀ q ∈ merge_cluster_assignments graph emb, q.1 ≠ u →
          q.2 ≠ lookupD (merge_cluster_assignments graph emb) u) := by
  have hm := merge_unfold graph emb he
  have hkeys : (merge_cluster_assignments graph emb).map Prod.fst =
      allUuidsOf graph emb := by
    rw [hm, assignFresh_keys, phase1_keys]
  refine ⟨hkeys, ?hnd, ?hmem, ?hnn, ?hdist⟩
  case hnd =>
    rw [hkeys]
    exact firstDedup_nodup _
  case hmem =>
    intro u
    rw [hkeys]
    unfold allUuidsOf
    rw [firstDedup_mem, List.mem_append]
  case hnn =>
    intro p hp
    rw [hm] at hp
    rcases assignFresh_values _ _ p hp with ⟨hpm, hpne⟩ | hge
    · have h1 := phase1_mem graph emb p hpm
      have h2 := phase1Val_ge_neg_one graph emb p.1 he
      rw [← h1.1] at h2
      omega
    · have := maxNonneg_ge_neg_one (phase1 graph emb)
      omega
  case hdist =>
    intro u hu hemb hg q hq hqu
    have hval : phase1Val graph emb u = -1 := by
      unfold phase1Val
      dsimp only
      rw [if_neg (not_le.mpr hemb), if_neg (not_le.mpr hg)]
    have hlk : lookupD (phase1 graph emb) u = -1 := by
      rw [phase1_lookup graph emb u hu, hval]
    have hbound : ∀ p ∈ phase1 graph emb, p.2 ≠ -1 →
        p.2 < maxNonneg (phase1 graph emb) + 1 := by
      intro p hp hpne
      have h1 := phase1_mem graph emb p hp
      have h2 := phase1Val_ge_neg_one graph emb p.1 he
      rw [← h1.1] at h2
      have h0 : 0 ≤ p.2 := by omega
      have := le_maxNonneg (phase1 graph emb) p hp h0
      omega
    have hum : u ∈ (phase1 graph emb).map Prod.fst := by
      rw [phase1_keys]
      exact hu
    rw [hm] at hq ⊢
    exact assignFresh_fresh_distinct _ _ u hum hlk hbound q hq hqu

theorem merge_totality_witness :
    (∀ p ∈ merge_cluster_assignments [("x", -1)] [("x", -1), ("y", 0)],
        0 ≤ p.2) ∧
      (∀ q ∈ merge_cluster_assignments [("x", -1)] [("x", -1), ("y", 0)],
        q.1 ≠ "x" →
        q.2 ≠ lookupD (merge_cluster_assignments [("x", -1)]
          [("x", -1), ("y", 0)]) "x") :=
  ⟨(merge_totality [("x", -1)] [("x", -1), ("y", 0)] (by decide)).2.2.2.1,
    (merge_totality [("x", -1)] [("x", -1), ("y", 0)] (by decide)).2.2.2.2 "x"
      (by decide) (by decide) (by decide)⟩

theorem filterMap_map_congr {α β γ : Type} (proj : β → γ) :
    ∀ (l : List α) (f g : α → Option β),
      (∀ a ∈ l, (f a).map proj = (g a).map proj) →
      (l.filterMap f).map proj = (l.filterMap g).map proj := by
  intro l
  induction l with
  | nil => intro f g _; rfl
  | cons a as ih =>
    intro f g h
    have ha := h a (List.mem_cons_self a as)
    have hrest : ∀ b ∈ as, (f b).map proj = (g b).map proj :=
      fun b hb => h b (List.mem_cons_of_mem a hb)
    rcases hf : f a with _ | b1
    · rcases hg : g a with _ | b2
      · simp [List.filterMap_cons, hf, hg]
        exact ih f g hrest
      · rw [hf, hg] at ha
        simp at ha
    · rcases hg : g a with _ | b2
      · rw [hf, hg] at ha
        simp at ha
      · rw [hf, hg] at ha
        simp at ha
        simp [List.filterMap_cons, hf, hg, ha]
        exact ih f g hrest

theorem buildSemanticCluster_entityIds_now (fmt : ℚ → String)
    (centOr : List String → CentralityInput) (now₁ now₂ : Int) (cid : Int)
    (rows : List NoteRow) :
    (buildSemanticCluster fmt centOr now₁ cid rows).map (fun c => c.entityIds) =
      (buildSemanticCluster fmt centOr now₂ cid rows).map (fun c => c.entityIds) := by
  by_cases h : compute_entity_graph_centrality (rows.map (fun r => r.noteId))
      (centOr (rows.map (fun r => r.noteId))) none = []
  · simp [buildSemanticCluster, h]
  · simp [buildSemanticCluster, h]

theorem buildSemanticCluster_hubs_now (fmt : ℚ → String)
    (centOr : List String → CentralityInput) (now₁ now₂ : Int) (cid : Int)
    (rows : List NoteRow) :
    (buildSemanticCluster fmt centOr now₁ cid rows).map (fun c => c.hubEntities) =
      (buildSemanticCluster fmt centOr now₂ cid rows).map (fun c => c.hubEntities) := by
  by_cases h : compute_entity_graph_centrality (rows.map (fun r => r.noteId))
      (centOr (rows.map (fun r => r.noteId))) none = []
  · simp [buildSemanticCluster, h]
  · simp [buildSemanticCluster, h]

theorem semBuilt_entityIds_now (fmt : ℚ → String)
    (umap : UmapParams → List (List ℚ) → List (List ℚ))
    (hdb : HdbscanParams → List (List ℚ) → List Int)
    (centOr : List String → CentralityInput)
    (env : SemanticEnv) (rng : Nat) (now₁ now₂ : Int) :
    (semBuiltClusters fmt umap hdb centOr env rng now₁).map (fun c => c.entityIds) =
      (semBuiltClusters fmt umap hdb centOr env rng now₂).map (fun c => c.entityIds) := by
  unfold semBuiltClusters
  exact filterMap_map_congr _ _ _ _
    (fun cid _ => buildSemanticCluster_entityIds_now fmt centOr now₁ now₂ cid _)

theorem semBuilt_hubs_now (fmt : ℚ → String)
    (umap : UmapParams → List (List ℚ) → List (List ℚ))
    (hdb : HdbscanParams → List (List ℚ) → List Int)
    (centOr : List String → CentralityInput)
    (env : SemanticEnv) (rng : Nat) (now₁ now₂ : Int) :
    (semBuiltClusters fmt umap hdb centOr env rng now₁).map (fun c => c.hubEntities) =
      (semBuiltClusters fmt umap hdb centOr env rng now₂).map (fun c => c.hubEntities) := by
  unfold semBuiltClusters
  exact filterMap_map_congr _ _ _ _
    (fun cid _ => buildSemanticCluster_hubs_now fmt centOr now₁ now₂ cid _)

theorem semBuilt_empty_iff (fmt : ℚ → String)
    (umap : UmapParams → List (List ℚ) → List (List ℚ))
    (hdb : HdbscanParams → List (List ℚ) → List Int)
    (centOr : List String → CentralityInput)
    (env : SemanticEnv) (rng : Nat) (now₁ now₂ : Int) :
    (semBuiltClusters fmt umap hdb centOr env rng now₁ = [] ↔
      semBuiltClusters fmt umap hdb centOr env rng now₂ = []) := by
  have h := semBuilt_entityIds_now fmt umap hdb centOr env rng now₁ now₂
  have hlen : (semBuiltClusters fmt umap hdb centOr env rng now₁).length =
      (semBuiltClusters fmt umap hdb centOr env rng now₂).length := by
    have := congrArg List.length h
    simpa using this
  constructor
  · intro he
    rw [he] at hlen
    exact List.length_eq_zero.mp hlen.symm
  · intro he
    rw [he] at hlen
    exact List.length_eq_zero.mp hlen

theorem simple_clustering_entityIds_now (e : List LouvainEntity)
    (now₁ now₂ : Int) :
    (_simple_clustering e now₁).map (fun c => c.entityIds) =
      (_simple_clustering e now₂).map (fun c => c.entityIds) := by
  unfold _simple_clustering
  rw [List.map_map, List.map_map]
  exact List.map_congr_left (fun a _ => rfl)

theorem fallback_clusters_shape (env : SemanticEnv) (r : String) (tc : Nat)
    (now : Int) :
    (semanticFallback env r tc now).clusters =
      if env.louvainEntities = [] then []
      else (_simple_clustering env.louvainEntities now).map ClusterRecord.typeBased := by
  unfold semanticFallback compute_clusters_louvain
  by_cases h : env.louvainEntities = []
  · simp [h]
  · simp [h]

theorem fallback_entityIds_now (env : SemanticEnv) (r : String) (tc : Nat)
    (now₁ now₂ : Int) :
    (semanticFallback env r tc now₁).clusters.map recordEntityIds =
      (semanticFallback env r tc now₂).clusters.map recordEntityIds := by
  rw [fallback_clusters_shape, fallback_clusters_shape]
  by_cases h : env.louvainEntities = []
  · rw [if_pos h, if_pos h]
  · rw [if_neg h, if_neg h]
    unfold _simple_clustering
    rw [List.map_map, List.map_map, List.map_map, List.map_map]
    exact List.map_congr_left (fun a _ => rfl)

theorem fallback_hubs_now (env : SemanticEnv) (r : String) (tc : Nat)
    (now₁ now₂ : Int) :
    (semanticFallback env r tc now₁).clusters.map recordHubs =
      (semanticFallback env r tc now₂).clusters.map recordHubs := by
  rw [fallback_clusters_shape, fallback_clusters_shape]
  by_cases h : env.louvainEntities = []
  · rw [if_pos h, if_pos h]
  · rw [if_neg h, if_neg h]
    unfold _simple_clustering
    rw [List.map_map, List.map_map, List.map_map, List.map_map]
    exact List.map_congr_left (fun a _ => rfl)

/-- C9: the clustering pipeline is deterministic across runs.  Ambient
randomness enters only through library seeds, and both seeded call sites
fix seed 42 (UMAP random_state in compute_clusters_semantic, Louvain seed in
cluster_by_graph_louvain), so two runs over identical inputs, whatever
ambient randomness and wall-clock time they see, produce identical
partitions and identical hub selections, and identical graph communities. -/
theorem clustering_deterministic (fmt : ℚ → String)
    (umap : UmapParams → List (List ℚ) → List (List ℚ))
    (hdb : HdbscanParams → List (List ℚ) → List Int)
    (centOr : List String → CentralityInput)
    (env : SemanticEnv) (rng₁ rng₂ : Nat) (tc : Nat) (now₁ now₂ : Int)
    (louvain : Nat → ℚ → List String → List (String × String × ℚ) → List (List String))
    (avail : Bool) (uuids : List String) (edges : List (String × String × ℚ))
    (resolution : ℚ) :
    ((compute_clusters_semantic fmt umap hdb centOr env rng₁ tc now₁).clusters.map
        recordEntityIds =
      (compute_clusters_semantic fmt umap hdb centOr env rng₂ tc now₂).clusters.map
        recordEntityIds) ∧
      ((compute_clusters_semantic fmt umap hdb centOr env rng₁ tc now₁).clusters.map
          recordHubs =
        (compute_clusters_semantic fmt umap hdb centOr env rng₂ tc now₂).clusters.map
          recordHubs) ∧
      cluster_by_graph_louvain louvain avail rng₁ uuids edges resolution =
        cluster_by_graph_louvain louvain avail rng₂ uuids edges resolution := by
  have hrng : compute_clusters_semantic fmt umap hdb centOr env rng₂ tc now₂ =
      compute_clusters_semantic fmt umap hdb centOr env rng₁ tc now₂ := rfl
  have hrngl : cluster_by_graph_louvain louvain avail rng₁ uuids edges resolution =
      cluster_by_graph_louvain louvain avail rng₂ uuids edges resolution := rfl
  refine ⟨?hids, ?hhubs, hrngl⟩
  case hids =>
    rw [hrng]
    unfold compute_clusters_semantic
    by_cases h1 : env.clusteringAvailable
    case neg =>
      rw [if_pos h1, if_pos h1]
      exact fallback_entityIds_now env _ tc now₁ now₂
    case pos =>
      rw [if_neg (not_not_intro h1), if_neg (not_not_intro h1)]
      by_cases h2 : env.exnMidCompute
      · rw [if_pos h2, if_pos h2]
        exact fallback_entityIds_now env _ tc now₁ now₂
      · rw [if_neg h2, if_neg h2]
        by_cases h3 : env.noteRows = []
        · rw [if_pos h3, if_pos h3]
          exact fallback_entityIds_now env _ tc now₁ now₂
        · rw [if_neg h3, if_neg h3]
          by_cases h4 : env.noteRows.length < 5
          · rw [if_pos h4, if_pos h4]
            exact fallback_entityIds_now env _ tc now₁ now₂
          · rw [if_neg h4, if_neg h4]
            by_cases h5 : semDistinctLabels umap hdb env rng₁ = []
            · rw [if_pos h5, if_pos h5]
              exact fallback_entityIds_now env _ tc now₁ now₂
            · rw [if_neg h5, if_neg h5]
              dsimp only
              by_cases h6 : semBuiltClusters fmt umap hdb centOr env rng₁ now₁ = []
              · have h6b : semBuiltClusters fmt umap hdb centOr env rng₁ now₂ = [] :=
                  (semBuilt_empty_iff fmt umap hdb centOr env rng₁ now₁ now₂).mp h6
                rw [if_pos h6, if_pos h6b]
                exact fallback_entityIds_now env _ tc now₁ now₂
              · have h6b : ¬(semBuiltClusters fmt umap hdb centOr env rng₁ now₂ = []) :=
                  fun hh => h6 ((semBuilt_empty_iff fmt umap hdb centOr env rng₁ now₁ now₂).mpr hh)
                rw [if_neg h6, if_neg h6b]
                dsimp only
                rw [List.map_map, List.map_map]
                have hmain := semBuilt_entityIds_now fmt umap hdb centOr env rng₁ now₁ now₂
                calc (semBuiltClusters fmt umap hdb centOr env rng₁ now₁).map
                      (recordEntityIds ∘ ClusterRecord.semantic)
                    = (semBuiltClusters fmt umap hdb centOr env rng₁ now₁).map
                      (fun c => c.entityIds) := List.map_congr_left (fun a _ => rfl)
                  _ = (semBuiltClusters fmt umap hdb centOr env rng₁ now₂).map
                      (fun c => c.entityIds) := hmain
                  _ = (semBuiltClusters fmt umap hdb centOr env rng₁ now₂).map
                      (recordEntityIds ∘ ClusterRecord.semantic) :=
                      (List.map_congr_left (fun a _ => rfl)).symm
  case hhubs =>
    rw [hrng]
    unfold compute_clusters_semantic
    by_cases h1 : env.clusteringAvailable
    case neg =>
      rw [if_pos h1, if_pos h1]
      exact fallback_hubs_now env _ tc now₁ now₂
    case pos =>
      rw [if_neg (not_not_intro h1), if_neg (not_not_intro h1)]
      by_cases h2 : env.exnMidCompute
      · rw [if_pos h2, if_pos h2]
        exact fallback_hubs_now env _ tc now₁ now₂
      · rw [if_neg h2, if_neg h2]
        by_cases h3 : env.noteRows = []
        · rw [if_pos h3, if_pos h3]
          exact fallback_hubs_now env _ tc now₁ now₂
        · rw [if_neg h3, if_neg h3]
          by_cases h4 : env.noteRows.length < 5
          · rw [if_pos h4, if_pos h4]
            exact fallback_hubs_now env _ tc now₁ now₂
          · rw [if_neg h4, if_neg h4]
            by_cases h5 : semDistinctLabels umap hdb env rng₁ = []
            · rw [if_pos h5, if_pos h5]
              exact fallback_hubs_now env _ tc now₁ now₂
            · rw [if_neg h5, if_neg h5]
              dsimp only
              by_cases h6 : semBuiltClusters fmt umap hdb centOr env rng₁ now₁ = []
              · have h6b : semBuiltClusters fmt umap hdb centOr env rng₁ now₂ = [] :=
                  (semBuilt_empty_iff fmt umap hdb centOr env rng₁ now₁ now₂).mp h6
                rw [if_pos h6, if_pos h6b]
                exact fallback_hubs_now env _ tc now₁ now₂
              · have h6b : ¬(semBuiltClusters fmt umap hdb centOr env rng₁ now₂ = []) :=
                  fun hh => h6 ((semBuilt_empty_iff fmt umap hdb centOr env rng₁ now₁ now₂).mpr hh)
                rw [if_neg h6, if_neg h6b]
                dsimp only
                rw [List.map_map, List.map_map]
                have hmain := semBuilt_hubs_now fmt umap hdb centOr env rng₁ now₁ now₂
                calc (semBuiltClusters fmt umap hdb centOr env rng₁ now₁).map
                      (recordHubs ∘ ClusterRecord.semantic)
                    = (semBuiltClusters fmt umap hdb centOr env rng₁ now₁).map
                      (fun c => c.hubEntities) := List.map_congr_left (fun a _ => rfl)
                  _ = (semBuiltClusters fmt umap hdb centOr env rng₁ now₂).map
                      (fun c => c.hubEntities) := hmain
                  _ = (semBuiltClusters fmt umap hdb centOr env rng₁ now₂).map
                      (recordHubs ∘ ClusterRecord.semantic) :=
                      (List.map_congr_left (fun a _ => rfl)).symm

/-- C8 counterexample: a folder-filtered request with warmup=true enters
the background-warmup branch, which computes the unfiltered semantic
clusters and writes them to the cluster cache, so the claim that every
filtered request leaves the cache untouched fails at this input. -/
theorem filtered_request_cache_counterexample :
    folderTruthy (some "1_프로젝트/") = true ∧
      clusteredVaultGraphCacheOps
        ⟨true, false, some "1_프로젝트/", "semantic"⟩
        ⟨false, false, true⟩ = [CacheOp.write] := by
  constructor
  · rfl
  · rfl

/-- C8 amended: a folder-filtered request in normal compute mode
(warmup=false) bypasses the cluster cache entirely: it performs neither a
cache read nor a cache write, and the stored cache state is unchanged. -/
theorem filtered_request_bypasses_cache (req : RouteRequest) (env : RouteEnv)
    (hf : folderTruthy req.folderPref = true) (hw : req.warmup = false) :
    clusteredVaultGraphCacheOps req env = [] ∧
      (∀ (s : Option (List ClusterRecord)) (fresh : List ClusterRecord),
        cacheAfterOps (clusteredVaultGraphCacheOps req env) s fresh = s) := by
  have hops : clusteredVaultGraphCacheOps req env = [] := by
    unfold clusteredVaultGraphCacheOps
    rw [hw]
    simp [hf]
  refine ⟨hops, ?hstate⟩
  intro s fresh
  rw [hops]
  simp [cacheAfterOps]

theorem filtered_request_bypasses_cache_witness :
    clusteredVaultGraphCacheOps
      ⟨false, false, some "1_프로젝트/", "semantic"⟩ ⟨true, false, false⟩ = [] :=
  (filtered_request_bypasses_cache
    ⟨false, false, some "1_프로젝트/", "semantic"⟩ ⟨true, false, false⟩
    rfl rfl).1

theorem typeToCluster_lt_eight (t : Option String) : typeToCluster t < 8 := by
  rcases t with _ | s
  · decide
  · simp only [typeToCluster]
    split_ifs <;> omega

theorem pkmTid_inj_on_range :
    ∀ i ∈ List.range 8, ∀ j ∈ List.range 8,
      (PKM_TYPES i).tid = (PKM_TYPES j).tid → i = j := by
  decide

theorem mkHybridCluster_pkmType (entities : List HybridEntity)
    (relatesToEdges : List (String × String × ℚ)) (now : Int) (cid : Nat) :
    (mkHybridCluster entities relatesToEdges now cid).pkmType =
      (PKM_TYPES cid).tid := rfl

theorem mkHybridCluster_mem_uuid (entities : List HybridEntity)
    (relatesToEdges : List (String × String × ℚ)) (now : Int) (cid : Nat)
    (e : HybridEntity) (he : e ∈ entities)
    (hnd : (entities.map (fun e => e.uuid)).Nodup) :
    e.uuid ∈ (mkHybridCluster entities relatesToEdges now cid).entityUuids ↔
      typeToCluster e.pkmType = cid := by
  show e.uuid ∈ ((cluster_by_pkm_type entities).filter
      (fun p => p.2 = cid)).map Prod.fst ↔ _
  constructor
  · intro h
    rcases List.mem_map.mp h with ⟨p, hp, hp1⟩
    have hf := List.mem_filter.mp hp
    rcases List.mem_map.mp hf.1 with ⟨e2, he2, hpe⟩
    have hcid : p.2 = cid := by simpa using hf.2
    have huu : e2.uuid = e.uuid := by
      rw [← hpe] at hp1
      exact hp1
    have hee : e2 = e := List.inj_on_of_nodup_map hnd he2 he huu
    rw [← hcid, ← hpe]
    rw [hee]
  · intro h
    refine List.mem_map.mpr ⟨(e.uuid, typeToCluster e.pkmType), ?hmem, rfl⟩
    refine List.mem_filter.mpr ⟨List.mem_map.mpr ⟨e, he, rfl⟩, ?hc⟩
    simpa using h

/-- C10 counterexample: with an empty entity list,
compute_entity_clusters_hybrid returns zero clusters, not the eight core
type clusters. -/
theorem hybrid_clustering_empty_counterexample :
    (compute_entity_clusters_hybrid [] [] 0).clusters.length ≠ 8 := by
  decide

/-- C10 amended: given at least one entity, the hybrid entity clustering
returns exactly eight clusters, one per PKM core type in the fixed order
Goal, Project, Task, Topic, Concept, Question, Insight, Resource (including
empty ones); every input entity is assigned to exactly one of them, with
membership determined by its PKM type; Person and unrecognized types land
in the Topic cluster. -/
theorem hybrid_clustering_eight_core_clusters (entities : List HybridEntity)
    (relatesToEdges : List (String × String × ℚ)) (now : Int)
    (hne : entities ≠ [])
    (hnd : (entities.map (fun e => e.uuid)).Nodup) :
    (compute_entity_clusters_hybrid entities relatesToEdges now).clusters.length = 8 ∧
      ((compute_entity_clusters_hybrid entities relatesToEdges now).clusters.map
          (fun c => c.pkmType) =
        ["Goal", "Project", "Task", "Topic", "Concept", "Question", "Insight",
          "Resource"]) ∧
      (∀ e ∈ entities,
        ∃ c ∈ (compute_entity_clusters_hybrid entities relatesToEdges now).clusters,
          e.uuid ∈ c.entityUuids) ∧
      (∀ e ∈ entities,
        ∀ c1 ∈ (compute_entity_clusters_hybrid entities relatesToEdges now).clusters,
        ∀ c2 ∈ (compute_entity_clusters_hybrid entities relatesToEdges now).clusters,
          e.uuid ∈ c1.entityUuids → e.uuid ∈ c2.entityUuids → c1 = c2) ∧
      (∀ e ∈ entities,
        ∀ c ∈ (compute_entity_clusters_hybrid entities relatesToEdges now).clusters,
          (e.uuid ∈ c.entityUuids ↔
            c.pkmType = (PKM_TYPES (typeToCluster e.pkmType)).tid)) ∧
      (typeToCluster (some "Person") = 3 ∧ (PKM_TYPES 3).tid = "Topic") ∧
      (∀ t : Option String,
        (∀ s, t = some s →
          s ∉ ["Goal", "Project", "Task", "Topic", "Concept", "Question",
            "Insight", "Resource", "Person"]) →
        typeToCluster t = 3) := by
  have hcl : (compute_entity_clusters_hybrid entities relatesToEdges now).clusters =
      (List.range 8).map (mkHybridCluster entities relatesToEdges now) := by
    unfold compute_entity_clusters_hybrid
    rw [if_neg hne]
  have hiff : ∀ e ∈ entities,
      ∀ c ∈ (compute_entity_clusters_hybrid entities relatesToEdges now).clusters,
        (e.uuid ∈ c.entityUuids ↔
          c.pkmType = (PKM_TYPES (typeToCluster e.pkmType)).tid) := by
    intro e he c hc
    rw [hcl] at hc
    rcases List.mem_map.mp hc with ⟨cid, hcid, hcc⟩
    rw [← hcc, mkHybridCluster_pkmType,
      mkHybridCluster_mem_uuid entities relatesToEdges now cid e he hnd]
    constructor
    · intro h
      rw [h]
    · intro h
      have h8 : typeToCluster e.pkmType ∈ List.range 8 :=
        List.mem_range.mpr (typeToCluster_lt_eight e.pkmType)
      exact (pkmTid_inj_on_range cid hcid (typeToCluster e.pkmType) h8 h).symm
  refine ⟨?hlen, ?hord, ?hex, ?huniq, hiff, ⟨rfl, rfl⟩, ?hunrec⟩
  case hlen =>
    rw [hcl]
    rfl
  case hord =>
    rw [hcl]
    rfl
  case hex =>
    intro e he
    refine ⟨mkHybridCluster entities relatesToEdges now (typeToCluster e.pkmType),
      ?hc, ?hm⟩
    · rw [hcl]
      exact List.mem_map.mpr
        ⟨typeToCluster e.pkmType,
          List.mem_range.mpr (typeToCluster_lt_eight e.pkmType), rfl⟩
    · exact (mkHybridCluster_mem_uuid entities relatesToEdges now _ e he hnd).mpr rfl
  case huniq =>
    intro e he c1 hc1 c2 hc2 hm1 hm2
    have h1 := (hiff e he c1 hc1).mp hm1
    have h2 := (hiff e he c2 hc2).mp hm2
    rw [hcl] at hc1 hc2
    rcases List.mem_map.mp hc1 with ⟨cid1, hcid1, hcc1⟩
    rcases List.mem_map.mp hc2 with ⟨cid2, hcid2, hcc2⟩
    have ht1 : (PKM_TYPES cid1).tid = (PKM_TYPES (typeToCluster e.pkmType)).tid := by
      rw [← mkHybridCluster_pkmType entities relatesToEdges now cid1, hcc1]
      exact h1
    have ht2 : (PKM_TYPES cid2).tid = (PKM_TYPES (typeToCluster e.pkmType)).tid := by
      rw [← mkHybridCluster_pkmType entities relatesToEdges now cid2, hcc2]
      exact h2
    have hcid : cid1 = cid2 :=
      pkmTid_inj_on_range cid1 hcid1 cid2 hcid2 (ht1.trans ht2.symm)
    rw [← hcc1, ← hcc2, hcid]
  case hunrec =>
    intro t ht
    rcases t with _ | s
    · rfl
    · have hs := ht s rfl
      have e1 : s ≠ "Goal" := fun h => hs (by rw [h]; simp)
      have e2 : s ≠ "Project" := fun h => hs (by rw [h]; simp)
      have e3 : s ≠ "Task" := fun h => hs (by rw [h]; simp)
      have e4 : s ≠ "Topic" := fun h => hs (by rw [h]; simp)
      have e5 : s ≠ "Concept" := fun h => hs (by rw [h]; simp)
      have e6 : s ≠ "Question" := fun h => hs (by rw [h]; simp)
      have e7 : s ≠ "Insight" := fun h => hs (by rw [h]; simp)
      have e8 : s ≠ "Resource" := fun h => hs (by rw [h]; simp)
      have e9 : s ≠ "Person" := fun h => hs (by rw [h]; simp)
      simp [typeToCluster, e1, e2, e3, e4, e5, e6, e7, e8, e9]

theorem hybrid_clustering_eight_core_clusters_witness :
    (compute_entity_clusters_hybrid
      [⟨"u1", "E1", "", some "Person", none, 3⟩] [] 0).clusters.length = 8 :=
  (hybrid_clustering_eight_core_clusters
    [⟨"u1", "E1", "", some "Person", none, 3⟩] [] 0
    (by simp) (by simp)).1

end PKM
